import Mathlib

/-!
Verification of the gojsonschema core (fork `victoru/gojsonschema`),
a JSON Schema Draft-4 validator written in Go.

This file gives a shallow embedding of the validation core:
  * the JSON value model (`JsonValue`),
  * the compiled schema tree (`SubSchema`, mirroring Go struct `subSchema`),
  * the error/score accumulator (`Result`, `ResultError`, `getBestResult`
    from `result.go`),
  * the JSON pointer context (`jsonContext`),
  * the recursive validator (`validateRecursive`, `validateSchema`,
    `validateCommon`, `validateArray`, `validateObject`,
    `validatePatternProperty`, `validateString`, `validateNumber`,
    `subValidateWithContext` from `subSchema.go`).

Modelling conventions, stated once here:
  * Go `float64` JSON numbers are modelled as `Rat`; `isFloat64AnInteger`
    becomes the test that the rational is integral.  No claim below depends
    on binary floating-point rounding.
  * Go maps (`map[string]interface{}` document objects,
    `patternProperties`, `dependencies`) are modelled as association
    lists: the list records the map contents together with one possible
    enumeration order.  Go map iteration order is unspecified, so one Go
    map corresponds to every permutation of the list.
  * Go loops are written as explicit recursive helper functions named
    `...Loop`, one per `for` statement of the source.
  * `ResultError` keeps the fields the validation logic and the error
    report use: context, schema keyword (`Attribute`) and `Requirement`.
    The `Description` and `Value` fields are human-readable payloads built
    from message constants and number formatters that are not part of the
    sources; no claim concerns them, and they are not modelled.
  * Requirement payloads that the Go code builds with `marshalSubSchema`
    (a JSON rendering of a schema) are kept as the structured data that
    was marshalled; this preserves every distinction the claims need.
-/

namespace GoJsonSchema

/-- JSON document values. `num` carries a rational standing for the Go
`float64`; `obj` lists key/value pairs in one possible Go map enumeration
order (JSON object keys are unique).  `other` stands for any non-nil Go
value whose reflect kind is none of slice, map, bool, string, float64
(for example a Go `int` or a struct): the `switch` in `validateRecursive`
has no case for such values. -/
inductive JsonValue where
  | null : JsonValue
  | bool : Bool → JsonValue
  | num : Rat → JsonValue
  | str : String → JsonValue
  | arr : List JsonValue → JsonValue
  | obj : List (String × JsonValue) → JsonValue
  | other : JsonValue
deriving Repr

/-- Keyword constants from `subSchema.go` (the `KEY_*` block). -/
def KEY_TYPE : String := "type"
def KEY_ITEMS : String := "items"
def KEY_ADDITIONAL_ITEMS : String := "additionalItems"
def KEY_PATTERN_PROPERTIES : String := "patternProperties"
def KEY_ADDITIONAL_PROPERTIES : String := "additionalProperties"
def KEY_MULTIPLE_OF : String := "multipleOf"
def KEY_MINIMUM : String := "minimum"
def KEY_MAXIMUM : String := "maximum"
def KEY_EXCLUSIVE_MINIMUM : String := "exclusiveMinimum"
def KEY_EXCLUSIVE_MAXIMUM : String := "exclusiveMaximum"
def KEY_MIN_LENGTH : String := "minLength"
def KEY_MAX_LENGTH : String := "maxLength"
def KEY_PATTERN : String := "pattern"
def KEY_MIN_PROPERTIES : String := "minProperties"
def KEY_MAX_PROPERTIES : String := "maxProperties"
def KEY_DEPENDENCIES : String := "dependencies"
def KEY_REQUIRED : String := "required"
def KEY_MIN_ITEMS : String := "minItems"
def KEY_MAX_ITEMS : String := "maxItems"
def KEY_UNIQUE_ITEMS : String := "uniqueItems"
def KEY_ENUM : String := "enum"
def KEY_ONE_OF : String := "oneOf"
def KEY_ANY_OF : String := "anyOf"
def KEY_ALL_OF : String := "allOf"
def KEY_NOT : String := "not"

/-- Root segment of the error-location context, from
`src/unnamed/part_000` line 38 (`STRING_CONTEXT_ROOT = "#"`). -/
def STRING_CONTEXT_ROOT : String := "#"

/-- Type-tag constants (`TYPE_*` in the schema-type source, whose file is
not under `src/`; the seven Draft-4 tag spellings are fixed by the spec,
section 3 "Value & type model"). -/
def TYPE_NULL : String := "null"
def TYPE_BOOLEAN : String := "boolean"
def TYPE_INTEGER : String := "integer"
def TYPE_NUMBER : String := "number"
def TYPE_STRING : String := "string"
def TYPE_ARRAY : String := "array"
def TYPE_OBJECT : String := "object"

/-- Modelled from the spec: the `jsonSchemaType` type-set (its Go file is
not under `src/`; the spec, section 3 "Type set", fixes its semantics:
empty = untyped, `IsTyped` = non-empty, `Contains` = membership,
`String` = the joined tag list used as the `type`-error requirement). -/
structure JsonSchemaType where
  types : List String
deriving Repr

def JsonSchemaType.IsTyped (t : JsonSchemaType) : Bool :=
  ¬ t.types.isEmpty

def JsonSchemaType.Contains (t : JsonSchemaType) (s : String) : Bool :=
  t.types.contains s

def JsonSchemaType.typesString (t : JsonSchemaType) : String :=
  String.intercalate "," t.types

/-- Modelled from the spec: `isFloat64AnInteger` (helper file not under
`src/`); a JSON number satisfies the `integer` tag iff it is integral
(spec section 3: "a JSON number n satisfies the integer type tag iff
n is finite and floor(n) == n"). -/
def isFloat64AnInteger (q : Rat) : Bool :=
  q.den == 1

/-- Modelled from the spec: regex partial matching as done by Go
`regexp.MatchString(pattern, key)`.  The regex engine is an external
collaborator (spec section 1 declares regex compilation out of scope);
we interpret the restricted pattern language the verified schemas use:
a literal with optional `^` and `$` anchors, matched as a partial
(substring) match, the empty pattern matching everything. -/
def regexpMatchString (p k : String) : Bool :=
  let pc := p.toList
  let kc := k.toList
  if pc.isEmpty then true
  else if pc.head? = some '^' && pc.getLast? = some '$' then
    decide (kc = (pc.drop 1).dropLast)
  else if pc.head? = some '^' then
    (pc.drop 1).isPrefixOf kc
  else if pc.getLast? = some '$' then
    pc.dropLast.isSuffixOf kc
  else
    decide (List.IsInfix pc kc)

/-- Payload of a Go `interface{}` field holding either a `bool` or a
`*subSchema` (used by `additionalProperties` and `additionalItems`;
`Option` models the `nil` interface). -/
inductive SchemaOrBool (σ : Type) where
  | bool : Bool → SchemaOrBool σ
  | schema : σ → SchemaOrBool σ
deriving Repr

/-- Payload of a `dependencies` map entry: either a `[]string` property
dependency or a `*subSchema` schema dependency. -/
inductive SchemaOrStrings (σ : Type) where
  | strings : List String → SchemaOrStrings σ
  | schema : σ → SchemaOrStrings σ
deriving Repr

/-- Keyword payloads of a compiled schema node, mirroring the Go struct
`subSchema` field for field.  Build-time metadata that the validator
never reads (`id`, `title`, `description`, `ref`, `subSchema`, `parent`,
`definitions`, `definitionsChildren`) is omitted.  `refSchema` is the
resolved reference target; in the model the resolved tree is finite
(spec section 4.5 guarantees termination).  Regexes (`pattern` and the
keys of `patternProperties`) are kept as their source strings and
matched by `regexpMatchString`. -/
structure SchemaFields (σ : Type) where
  types : JsonSchemaType := ⟨[]⟩
  property : String := ""
  refSchema : Option σ := none
  itemsChildren : List σ := []
  itemsChildrenIsSingleSchema : Bool := false
  propertiesChildren : List σ := []
  multipleOf : Option Rat := none
  maximum : Option Rat := none
  exclusiveMaximum : Option Bool := none
  minimum : Option Rat := none
  exclusiveMinimum : Option Bool := none
  minLength : Option Int := none
  maxLength : Option Int := none
  pattern : Option String := none
  minProperties : Option Int := none
  maxProperties : Option Int := none
  required : List String := []
  dependencies : List (String × SchemaOrStrings σ) := []
  additionalProperties : Option (SchemaOrBool σ) := none
  patternProperties : List (String × σ) := []
  minItems : Option Int := none
  maxItems : Option Int := none
  uniqueItems : Option Bool := none
  additionalItems : Option (SchemaOrBool σ) := none
  enum : List String := []
  oneOf : List σ := []
  anyOf : List σ := []
  allOf : List σ := []
  notSchema : Option σ := none

/-- A compiled schema node (Go `subSchema`).  The single constructor
wraps the keyword payloads; recursion goes through `SchemaFields`. -/
inductive SubSchema where
  | mk : SchemaFields SubSchema → SubSchema

/-- Keyword payloads of a schema node. -/
def SubSchema.f : SubSchema → SchemaFields SubSchema
  | .mk fields => fields

/-- A schema node with no keywords set (an empty schema `{}`). -/
def emptySchema : SubSchema := .mk {}

/-- Requirement payload of an error (the Go code passes `interface{}`;
each case below corresponds to one concrete payload the validator
passes to `addError`).  `schemas`/`schema` stand for the
`marshalSubSchemas`/`marshalSubSchema` renderings, keeping the schema
data itself. -/
inductive Req where
  | str : String → Req
  | int : Int → Req
  | bool : Bool → Req
  | rat : Rat → Req
  | strs : List String → Req
  | schemas : List SubSchema → Req
  | schema : SubSchema → Req
  | patterns : List (String × SubSchema) → Req

/-- One recorded validation error (Go `ResultError` in `result.go`):
location context, the schema keyword responsible (`Attribute`), and the
requirement that was violated. -/
structure ResultError where
  Context : List String
  Attribute : String
  Requirement : Option Req

/-- Error accumulator with the best-match score (Go `Result`). -/
structure Result where
  errors : List ResultError := []
  score : Int := 0

/-- Result is valid iff no errors were recorded (`Result.Valid`). -/
def Result.Valid (v : Result) : Bool :=
  v.errors.isEmpty

/-- Result.addError: append one error and apply the −2 score penalty
("results in a net -1 when added to the +1 we get at the end of the
validation function"). -/
def Result.addError (v : Result) (context : List String) (attr : String)
    (requirement : Option Req) : Result :=
  { errors := v.errors ++ [⟨context, attr, requirement⟩]
    score := v.score - 2 }

/-- Result.mergeErrors: copy a sub-result's errors and score into the
parent. -/
def Result.mergeErrors (v other : Result) : Result :=
  { errors := v.errors ++ other.errors
    score := v.score + other.score }

/-- Result.incrementScore: the +1 a validation routine applies on
completion. -/
def Result.incrementScore (v : Result) : Result :=
  { v with score := v.score + 1 }

/-- Best result of a list of sub-results (`getBestResult` in
`result.go`): with more than one result, sort by score descending and
return the first exactly when the two top scores differ; otherwise (tie
at the top, or fewer than two results) return nothing.  Go uses an
unstable `sort.Sort`; a stable `mergeSort` yields the same output, since
when several elements share the top score both return `none`, and when
the top score is unique every descending sort puts its element first. -/
def getBestResult (results : List Result) : Option Result :=
  if results.length > 1 then
    match results.mergeSort (fun a b => decide (b.score ≤ a.score)) with
    | r0 :: r1 :: _ => if r0.score ≠ r1.score then some r0 else none
    | _ => none
  else none

/-- Construction of a JSON pointer context (`newJsonContext`): the Go
struct is a linked list with the most recent segment at the head. -/
def newJsonContext (head : String) (tail : List String) : List String :=
  head :: tail

/-- Modelled from the spec: rendering of a context
(`jsonContext.String()`, whose file is not under `src/`): the segments
from the root joined with dots, numeric indices in decimal (spec
section 3 "JSON pointer context").  The root segment itself is the
source constant `STRING_CONTEXT_ROOT`. -/
def ctxString (c : List String) : String :=
  String.intercalate "." c.reverse

mutual

/-- Modelled from the spec: `marshalToJsonString` (helper file not under
`src/`), the canonical JSON form used for `enum` membership and
`uniqueItems` (spec section 6 "Canonical JSON": sorted object keys, no
whitespace, canonical number form; two values are equal iff their
canonical forms are byte-identical).  Numbers are rendered through
`Rat`, which is injective, preserving the equality classes; object
members are sorted (sorting the rendered members agrees with sorting
the keys, the quote character being minimal in the strings involved);
serialization fails (the Go `json.Marshal` error) exactly on non-JSON
host values. -/
def canonicalJson : JsonValue → Option String
  | .null => some "null"
  | .bool b => some (if b then "true" else "false")
  | .num q => some (toString q)
  | .str s => some ("\"" ++ s ++ "\"")
  | .arr xs => (canonicalJsonList xs).map
      (fun parts => "[" ++ String.intercalate "," parts ++ "]")
  | .obj kvs =>
      (canonicalJsonPairs kvs).map
        (fun parts =>
          "\x7b" ++
            String.intercalate ","
              (parts.mergeSort (fun a b => decide (a ≤ b))) ++ "\x7d")
  | .other => none

/-- Serialization of the elements of a JSON array, in order. -/
def canonicalJsonList : List JsonValue → Option (List String)
  | [] => some []
  | x :: xs => do
      let s ← canonicalJson x
      let rest ← canonicalJsonList xs
      pure (s :: rest)

/-- Serialization of the (already sorted) pairs of a JSON object. -/
def canonicalJsonPairs : List (String × JsonValue) → Option (List String)
  | [] => some []
  | (k, v) :: kvs => do
      let s ← canonicalJson v
      let rest ← canonicalJsonPairs kvs
      pure (("\"" ++ k ++ "\":" ++ s) :: rest)

end

/-- Helper `isStringInSlice` (its file is not under `src/`; linear
membership test). -/
def isStringInSlice (l : List String) (s : String) : Bool :=
  l.contains s

/-- Enum membership (`subSchema.ContainsEnum`): serialize the value and
test membership in the canonicalized `enum` entries; `none` models the
Go error return when serialization fails. -/
def SubSchema.ContainsEnum (s : SubSchema) (v : JsonValue) : Option Bool :=
  (canonicalJson v).map (fun is => isStringInSlice s.f.enum is)

/-- Go map indexing `value[key]` on a JSON object (association-list
lookup; JSON object keys are unique). -/
def lookupJson : List (String × JsonValue) → String → Option JsonValue
  | [], _ => none
  | (k, v) :: rest, key => if k = key then some v else lookupJson rest key

/-- Go map indexing `dependencies[elementKey]`. -/
def lookupDependency :
    List (String × SchemaOrStrings SubSchema) → String →
      Option (SchemaOrStrings SubSchema)
  | [], _ => none
  | (k, v) :: rest, key =>
      if k = key then some v else lookupDependency rest key

/-- Loop of the `uniqueItems` check in `validateArray`: serialize each
item, report a `uniqueItems` error for every occurrence that repeats an
earlier serialization, and accumulate the serializations.  When
serialization fails Go records an internal error and would then
dereference a nil pointer; that branch is unreachable for JSON-decoded
documents, and the model records the error and moves on. -/
def uniqueItemsLoop :
    List JsonValue → List String → Result → List String → Result
  | [], _, res, _ => res
  | v :: rest, stringifiedItems, res, ctx =>
    match canonicalJson v with
    | none =>
        uniqueItemsLoop rest stringifiedItems
          (res.addError ctx KEY_UNIQUE_ITEMS none) ctx
    | some vString =>
        let res1 :=
          if isStringInSlice stringifiedItems vString then
            res.addError ctx KEY_UNIQUE_ITEMS none
          else res
        uniqueItemsLoop rest (stringifiedItems ++ [vString]) res1 ctx

/-- Loop of the `required` check in `validateObject`: a present required
property increments the score, a missing one yields a `required` error
at the property's sub-context. -/
def requiredLoop (value : List (String × JsonValue)) (ctx : List String)
    (res : Result) (required : List String) : Result :=
  required.foldl
    (fun r requiredProperty =>
      if (lookupJson value requiredProperty).isSome then
        r.incrementScore
      else
        r.addError (newJsonContext requiredProperty ctx) KEY_REQUIRED none)
    res

/-- String assertions (`validateString`): non-strings are ignored
entirely (the routine returns before touching the result); for strings,
`minLength`/`maxLength` count Unicode code points and `pattern` is a
partial match, and the routine ends with the +1 completion score. -/
def validateString (s : SubSchema) (value : JsonValue) (res : Result)
    (ctx : List String) : Result :=
  match value with
  | .str stringValue =>
    let res1 :=
      match s.f.minLength with
      | some ml =>
          if (stringValue.length : Int) < ml then
            res.addError ctx KEY_MIN_LENGTH (some (.int ml))
          else res
      | none => res
    let res2 :=
      match s.f.maxLength with
      | some ml =>
          if (stringValue.length : Int) > ml then
            res1.addError ctx KEY_MAX_LENGTH (some (.int ml))
          else res1
      | none => res1
    let res3 :=
      match s.f.pattern with
      | some p =>
          if ¬ regexpMatchString p stringValue then
            res2.addError ctx KEY_PATTERN (some (.str p))
          else res2
      | none => res2
    res3.incrementScore
  | _ => res

/-- Numeric assertions (`validateNumber`): non-numbers are ignored
entirely; for numbers, `multipleOf` divides and tests integrality, and
`minimum`/`maximum` compare strictly or not according to the exclusive
flags; the routine ends with the +1 completion score. -/
def validateNumber (s : SubSchema) (value : JsonValue) (res : Result)
    (ctx : List String) : Result :=
  match value with
  | .num float64Value =>
    let res1 :=
      match s.f.multipleOf with
      | some m =>
          if ¬ isFloat64AnInteger (float64Value / m) then
            res.addError ctx KEY_MULTIPLE_OF (some (.rat m))
          else res
      | none => res
    let res2 :=
      match s.f.maximum with
      | some mx =>
          match s.f.exclusiveMaximum with
          | some true =>
              if float64Value ≥ mx then
                res1.addError ctx KEY_EXCLUSIVE_MAXIMUM (some (.rat mx))
              else res1
          | _ =>
              if float64Value > mx then
                res1.addError ctx KEY_MAXIMUM (some (.rat mx))
              else res1
      | none => res1
    let res3 :=
      match s.f.minimum with
      | some mn =>
          match s.f.exclusiveMinimum with
          | some true =>
              if float64Value ≤ mn then
                res2.addError ctx KEY_EXCLUSIVE_MINIMUM (some (.rat mn))
              else res2
          | _ =>
              if float64Value < mn then
                res2.addError ctx KEY_MINIMUM (some (.rat mn))
              else res2
      | none => res2
    res3.incrementScore
  | _ => res

/-- Common assertions (`validateCommon`): `enum` membership through the
canonical serialization.  A serialization error records the internal
`enum` error and, `has` then being false, the plain `enum` error as
well, exactly as the two successive `if` statements of the source do. -/
def validateCommon (s : SubSchema) (value : JsonValue) (res : Result)
    (ctx : List String) : Result :=
  let res1 :=
    if s.f.enum.length > 0 then
      match s.ContainsEnum value with
      | none =>
          (res.addError ctx KEY_ENUM (some (.strs s.f.enum))).addError ctx
            KEY_ENUM (some (.strs s.f.enum))
      | some has =>
          if !has then
            res.addError ctx KEY_ENUM (some (.strs s.f.enum))
          else res
    else res
  res1.incrementScore

/-- Size bound used for termination: a resolved reference target is a
strict subterm of its node. -/
theorem sizeOf_refSchema_lt (s r : SubSchema) (h : s.f.refSchema = some r) :
    sizeOf r < sizeOf s := by
  cases s with
  | mk fi =>
    cases fi
    simp only [SubSchema.f] at h
    subst h
    simp [SubSchema.f]
    omega

/-- Size bound used for termination: the `anyOf` list is a strict
subterm of its node. -/
theorem sizeOf_anyOf_lt (s : SubSchema) : sizeOf s.f.anyOf < sizeOf s := by
  cases s with
  | mk fi => cases fi; simp [SubSchema.f]; omega

/-- Size bound used for termination: the `oneOf` list is a strict
subterm of its node. -/
theorem sizeOf_oneOf_lt (s : SubSchema) : sizeOf s.f.oneOf < sizeOf s := by
  cases s with
  | mk fi => cases fi; simp [SubSchema.f]; omega

/-- Size bound used for termination: the `allOf` list is a strict
subterm of its node. -/
theorem sizeOf_allOf_lt (s : SubSchema) : sizeOf s.f.allOf < sizeOf s := by
  cases s with
  | mk fi => cases fi; simp [SubSchema.f]; omega

/-- Size bound used for termination: the `not` sub-schema is a strict
subterm of its node. -/
theorem sizeOf_notSchema_lt (s n : SubSchema) (h : s.f.notSchema = some n) :
    sizeOf n < sizeOf s := by
  cases s with
  | mk fi =>
    cases fi
    simp only [SubSchema.f] at h
    subst h
    simp [SubSchema.f]
    omega

/-- Size bound used for termination: the `dependencies` list is a strict
subterm of its node. -/
theorem sizeOf_dependencies_lt (s : SubSchema) :
    sizeOf s.f.dependencies < sizeOf s := by
  cases s with
  | mk fi => cases fi; simp [SubSchema.f]; omega

/-- Size bound used for termination: the `items` children list is a
strict subterm of its node. -/
theorem sizeOf_itemsChildren_lt (s : SubSchema) :
    sizeOf s.f.itemsChildren < sizeOf s := by
  cases s with
  | mk fi => cases fi; simp [SubSchema.f]; omega

/-- Size bound used for termination: the single-schema `items` child is
a strict subterm of its node. -/
theorem sizeOf_itemsHead_lt (s c : SubSchema) (rest : List SubSchema)
    (h : s.f.itemsChildren = c :: rest) : sizeOf c < sizeOf s := by
  have h1 : sizeOf s.f.itemsChildren < sizeOf s := sizeOf_itemsChildren_lt s
  rw [h] at h1
  simp at h1
  omega

/-- Size bound used for termination: an `additionalItems` schema is a
strict subterm of its node. -/
theorem sizeOf_additionalItems_schema_lt (s a : SubSchema)
    (h : s.f.additionalItems = some (.schema a)) : sizeOf a < sizeOf s := by
  cases s with
  | mk fi =>
    cases fi
    simp only [SubSchema.f] at h
    subst h
    simp [SubSchema.f]
    omega

/-- Size bound used for termination: an `additionalProperties` schema is
a strict subterm of its node. -/
theorem sizeOf_additionalProperties_schema_lt (s a : SubSchema)
    (h : s.f.additionalProperties = some (.schema a)) :
    sizeOf a < sizeOf s := by
  cases s with
  | mk fi =>
    cases fi
    simp only [SubSchema.f] at h
    subst h
    simp [SubSchema.f]
    omega

/-- Size bound used for termination: the `patternProperties` list is a
strict subterm of its node. -/
theorem sizeOf_patternProperties_lt (s : SubSchema) :
    sizeOf s.f.patternProperties < sizeOf s := by
  cases s with
  | mk fi => cases fi; simp [SubSchema.f]; omega

/-- Size bound used for termination: the `properties` children list is a
strict subterm of its node. -/
theorem sizeOf_propertiesChildren_lt (s : SubSchema) :
    sizeOf s.f.propertiesChildren < sizeOf s := by
  cases s with
  | mk fi => cases fi; simp [SubSchema.f]; omega

/-- Size bound used for termination: a schema dependency found by lookup
is strictly smaller than the dependencies list. -/
theorem sizeOf_lookupDependency_lt
    (deps : List (String × SchemaOrStrings SubSchema)) (key : String)
    (d : SubSchema) (h : lookupDependency deps key = some (.schema d)) :
    sizeOf d < sizeOf deps := by
  induction deps with
  | nil => simp [lookupDependency] at h
  | cons kv rest ih =>
    obtain ⟨k, v⟩ := kv
    simp only [lookupDependency] at h
    by_cases hk : k = key
    · simp [hk] at h
      subst h
      simp
      omega
    · simp [hk] at h
      have := ih h
      simp
      omega
set_option maxHeartbeats 1000000

mutual

/-- Fresh-result sub-validation (`subValidateWithContext`): validate
`document` against `v` into a new `Result`, preserving the context. -/
def subValidateWithContext (v : SubSchema) (document : JsonValue)
    (context : List String) : Result :=
  validateRecursive v document {} context
termination_by (sizeOf v, 9, 0)
decreasing_by
  all_goals (try simp_wf)
  all_goals first
    | (apply Prod.Lex.left; first
        | assumption
        | exact sizeOf_refSchema_lt _ _ (by assumption)
        | exact sizeOf_anyOf_lt _
        | exact sizeOf_oneOf_lt _
        | exact sizeOf_allOf_lt _
        | exact sizeOf_notSchema_lt _ _ (by assumption)
        | exact sizeOf_dependencies_lt _
        | exact sizeOf_itemsChildren_lt _
        | exact sizeOf_itemsHead_lt _ _ _ (by assumption)
        | exact sizeOf_additionalItems_schema_lt _ _ (by assumption)
        | exact sizeOf_patternProperties_lt _
        | exact sizeOf_propertiesChildren_lt _
        | exact sizeOf_lookupDependency_lt _ _ _ (by assumption)
        | omega
        | (simp only [List.cons.sizeOf_spec, Prod.mk.sizeOf_spec,
            List.length_cons]; omega))
    | (apply Prod.Lex.right; first
        | omega
        | (simp only [List.length_cons]; omega)
        | (apply Prod.Lex.left; omega)
        | (apply Prod.Lex.left; simp only [List.length_cons]; omega)
        | (apply Prod.Lex.right; omega)
        | (apply Prod.Lex.right; simp only [List.length_cons]; omega))

/-- The recursive walker (`validateRecursive`).  A resolved `$ref`
replaces the node and re-enters; a `nil` node or a node of slice, map,
bool, string or float64 kind is type-gated (an early `type` error skips
everything else, including the completion +1) and then run through the
schema-level, type-specific and common assertion routines of its kind;
any other kind falls through the `switch` untouched.  The walker ends
with the +1 completion score. -/
def validateRecursive (currentSubSchema : SubSchema)
    (currentNode : JsonValue) (result : Result) (context : List String) :
    Result :=
  match h : currentSubSchema.f.refSchema with
  | some refSchema => validateRecursive refSchema currentNode result context
  | none =>
    match currentNode with
    | .null =>
        if currentSubSchema.f.types.IsTyped &&
            !(currentSubSchema.f.types.Contains TYPE_NULL) then
          result.addError context KEY_TYPE
            (some (.str currentSubSchema.f.types.typesString))
        else
          let res1 := validateSchema currentSubSchema .null result context
          let res2 := validateCommon currentSubSchema .null res1 context
          res2.incrementScore
    | .bool value =>
        if currentSubSchema.f.types.IsTyped &&
            !(currentSubSchema.f.types.Contains TYPE_BOOLEAN) then
          result.addError context KEY_TYPE
            (some (.str currentSubSchema.f.types.typesString))
        else
          let res1 := validateSchema currentSubSchema (.bool value) result context
          let res2 := validateNumber currentSubSchema (.bool value) res1 context
          let res3 := validateCommon currentSubSchema (.bool value) res2 context
          let res4 := validateString currentSubSchema (.bool value) res3 context
          res4.incrementScore
    | .str value =>
        if currentSubSchema.f.types.IsTyped &&
            !(currentSubSchema.f.types.Contains TYPE_STRING) then
          result.addError context KEY_TYPE
            (some (.str currentSubSchema.f.types.typesString))
        else
          let res1 := validateSchema currentSubSchema (.str value) result context
          let res2 := validateNumber currentSubSchema (.str value) res1 context
          let res3 := validateCommon currentSubSchema (.str value) res2 context
          let res4 := validateString currentSubSchema (.str value) res3 context
          res4.incrementScore
    | .num value =>
        let isInteger := isFloat64AnInteger value
        let validType := currentSubSchema.f.types.Contains TYPE_NUMBER ||
          (isInteger && currentSubSchema.f.types.Contains TYPE_INTEGER)
        if currentSubSchema.f.types.IsTyped && !validType then
          result.addError context KEY_TYPE
            (some (.str currentSubSchema.f.types.typesString))
        else
          let res1 := validateSchema currentSubSchema (.num value) result context
          let res2 := validateNumber currentSubSchema (.num value) res1 context
          let res3 := validateCommon currentSubSchema (.num value) res2 context
          let res4 := validateString currentSubSchema (.num value) res3 context
          res4.incrementScore
    | .arr castCurrentNode =>
        if currentSubSchema.f.types.IsTyped &&
            !(currentSubSchema.f.types.Contains TYPE_ARRAY) then
          result.addError context KEY_TYPE
            (some (.str currentSubSchema.f.types.typesString))
        else
          let res1 := validateSchema currentSubSchema (.arr castCurrentNode)
            result context
          let res2 := validateArray currentSubSchema castCurrentNode res1
            context
          let res3 := validateCommon currentSubSchema (.arr castCurrentNode)
            res2 context
          res3.incrementScore
    | .obj castCurrentNode =>
        if currentSubSchema.f.types.IsTyped &&
            !(currentSubSchema.f.types.Contains TYPE_OBJECT) then
          result.addError context KEY_TYPE
            (some (.str currentSubSchema.f.types.typesString))
        else
          let res1 := validateSchema currentSubSchema (.obj castCurrentNode)
            result context
          let res2 := validateObject currentSubSchema castCurrentNode res1
            context
          let res3 := validateCommon currentSubSchema (.obj castCurrentNode)
            res2 context
          let res4 := propertiesLoop currentSubSchema.f.propertiesChildren
            castCurrentNode res3 context
          res4.incrementScore
    | .other => result.incrementScore
termination_by (sizeOf currentSubSchema, 8, 0)
decreasing_by
  all_goals (try simp_wf)
  all_goals first
    | (apply Prod.Lex.left; first
        | assumption
        | exact sizeOf_refSchema_lt _ _ (by assumption)
        | exact sizeOf_anyOf_lt _
        | exact sizeOf_oneOf_lt _
        | exact sizeOf_allOf_lt _
        | exact sizeOf_notSchema_lt _ _ (by assumption)
        | exact sizeOf_dependencies_lt _
        | exact sizeOf_itemsChildren_lt _
        | exact sizeOf_itemsHead_lt _ _ _ (by assumption)
        | exact sizeOf_additionalItems_schema_lt _ _ (by assumption)
        | exact sizeOf_patternProperties_lt _
        | exact sizeOf_propertiesChildren_lt _
        | exact sizeOf_lookupDependency_lt _ _ _ (by assumption)
        | omega
        | (simp only [List.cons.sizeOf_spec, Prod.mk.sizeOf_spec,
            List.length_cons]; omega))
    | (apply Prod.Lex.right; first
        | omega
        | (simp only [List.length_cons]; omega)
        | (apply Prod.Lex.left; omega)
        | (apply Prod.Lex.left; simp only [List.length_cons]; omega)
        | (apply Prod.Lex.right; omega)
        | (apply Prod.Lex.right; simp only [List.length_cons]; omega))

/-- Loop over `propertiesChildren` at the end of the object case of
`validateRecursive`: recurse into each declared property present in the
value, with the context extended by the property name. -/
def propertiesLoop (children : List SubSchema)
    (castCurrentNode : List (String × JsonValue)) (res : Result)
    (context : List String) : Result :=
  match children with
  | [] => res
  | pSchema :: rest =>
    let res1 :=
      match lookupJson castCurrentNode pSchema.f.property with
      | some nextNode =>
          validateRecursive pSchema nextNode res
            (newJsonContext pSchema.f.property context)
      | none => res
    propertiesLoop rest castCurrentNode res1 context
termination_by (sizeOf children, 10, 0)
decreasing_by
  all_goals (try simp_wf)
  all_goals first
    | (apply Prod.Lex.left; first
        | assumption
        | exact sizeOf_refSchema_lt _ _ (by assumption)
        | exact sizeOf_anyOf_lt _
        | exact sizeOf_oneOf_lt _
        | exact sizeOf_allOf_lt _
        | exact sizeOf_notSchema_lt _ _ (by assumption)
        | exact sizeOf_dependencies_lt _
        | exact sizeOf_itemsChildren_lt _
        | exact sizeOf_itemsHead_lt _ _ _ (by assumption)
        | exact sizeOf_additionalItems_schema_lt _ _ (by assumption)
        | exact sizeOf_patternProperties_lt _
        | exact sizeOf_propertiesChildren_lt _
        | exact sizeOf_lookupDependency_lt _ _ _ (by assumption)
        | omega
        | (simp only [List.cons.sizeOf_spec, Prod.mk.sizeOf_spec,
            List.length_cons]; omega))
    | (apply Prod.Lex.right; first
        | omega
        | (simp only [List.length_cons]; omega)
        | (apply Prod.Lex.left; omega)
        | (apply Prod.Lex.left; simp only [List.length_cons]; omega)
        | (apply Prod.Lex.right; omega)
        | (apply Prod.Lex.right; simp only [List.length_cons]; omega))

/-- The `anyOf` section of `validateSchema`: run the short-circuiting
loop; when no alternative validated, merge the best failed result or,
when no best exists, add the single `anyOf` summary error. -/
def validateSchemaAnyOf (currentSubSchema : SubSchema)
    (currentNode : JsonValue) (result : Result) (context : List String) :
    Result :=
  if currentSubSchema.f.anyOf.length > 0 then
    let loopOut := anyOfLoop currentSubSchema.f.anyOf currentNode context
      false []
    if !loopOut.1 then
      match getBestResult loopOut.2 with
      | some bestValidationResult => result.mergeErrors bestValidationResult
      | none =>
          result.addError context KEY_ANY_OF
            (some (.schemas currentSubSchema.f.anyOf))
    else result
  else result
termination_by (sizeOf currentSubSchema, 6, 0)
decreasing_by
  all_goals (try simp_wf)
  all_goals first
    | (apply Prod.Lex.left; first
        | assumption
        | exact sizeOf_refSchema_lt _ _ (by assumption)
        | exact sizeOf_anyOf_lt _
        | exact sizeOf_oneOf_lt _
        | exact sizeOf_allOf_lt _
        | exact sizeOf_notSchema_lt _ _ (by assumption)
        | exact sizeOf_dependencies_lt _
        | exact sizeOf_itemsChildren_lt _
        | exact sizeOf_itemsHead_lt _ _ _ (by assumption)
        | exact sizeOf_additionalItems_schema_lt _ _ (by assumption)
        | exact sizeOf_patternProperties_lt _
        | exact sizeOf_propertiesChildren_lt _
        | exact sizeOf_lookupDependency_lt _ _ _ (by assumption)
        | omega
        | (simp only [List.cons.sizeOf_spec, Prod.mk.sizeOf_spec,
            List.length_cons]; omega))
    | (apply Prod.Lex.right; first
        | omega
        | (simp only [List.length_cons]; omega)
        | (apply Prod.Lex.left; omega)
        | (apply Prod.Lex.left; simp only [List.length_cons]; omega)
        | (apply Prod.Lex.right; omega)
        | (apply Prod.Lex.right; simp only [List.length_cons]; omega))

/-- The `oneOf` section of `validateSchema`: run every alternative;
with exactly one success nothing happens, with zero merge the best
failure when one exists, and otherwise add the single `oneOf` summary
error. -/
def validateSchemaOneOf (currentSubSchema : SubSchema)
    (currentNode : JsonValue) (result : Result) (context : List String) :
    Result :=
  if currentSubSchema.f.oneOf.length > 0 then
    let loopOut := oneOfLoop currentSubSchema.f.oneOf currentNode context
      0 []
    if loopOut.1 ≠ 1 then
      let bestValidationResult :=
        if loopOut.1 = 0 then getBestResult loopOut.2 else none
      match bestValidationResult with
      | some best => result.mergeErrors best
      | none =>
          result.addError context KEY_ONE_OF
            (some (.schemas currentSubSchema.f.oneOf))
    else result
  else result
termination_by (sizeOf currentSubSchema, 6, 0)
decreasing_by
  all_goals (try simp_wf)
  all_goals first
    | (apply Prod.Lex.left; first
        | assumption
        | exact sizeOf_refSchema_lt _ _ (by assumption)
        | exact sizeOf_anyOf_lt _
        | exact sizeOf_oneOf_lt _
        | exact sizeOf_allOf_lt _
        | exact sizeOf_notSchema_lt _ _ (by assumption)
        | exact sizeOf_dependencies_lt _
        | exact sizeOf_itemsChildren_lt _
        | exact sizeOf_itemsHead_lt _ _ _ (by assumption)
        | exact sizeOf_additionalItems_schema_lt _ _ (by assumption)
        | exact sizeOf_patternProperties_lt _
        | exact sizeOf_propertiesChildren_lt _
        | exact sizeOf_lookupDependency_lt _ _ _ (by assumption)
        | omega
        | (simp only [List.cons.sizeOf_spec, Prod.mk.sizeOf_spec,
            List.length_cons]; omega))
    | (apply Prod.Lex.right; first
        | omega
        | (simp only [List.length_cons]; omega)
        | (apply Prod.Lex.left; omega)
        | (apply Prod.Lex.left; simp only [List.length_cons]; omega)
        | (apply Prod.Lex.right; omega)
        | (apply Prod.Lex.right; simp only [List.length_cons]; omega))

/-- The `allOf` section of `validateSchema`: merge every sub-result and
add the `allOf` summary error unless all alternatives validated. -/
def validateSchemaAllOf (currentSubSchema : SubSchema)
    (currentNode : JsonValue) (result : Result) (context : List String) :
    Result :=
  if currentSubSchema.f.allOf.length > 0 then
    let loopOut := allOfLoop currentSubSchema.f.allOf currentNode context
      0 result
    if loopOut.1 ≠ currentSubSchema.f.allOf.length then
      loopOut.2.addError context KEY_ALL_OF
        (some (.schemas currentSubSchema.f.allOf))
    else loopOut.2
  else result
termination_by (sizeOf currentSubSchema, 6, 0)
decreasing_by
  all_goals (try simp_wf)
  all_goals first
    | (apply Prod.Lex.left; first
        | assumption
        | exact sizeOf_refSchema_lt _ _ (by assumption)
        | exact sizeOf_anyOf_lt _
        | exact sizeOf_oneOf_lt _
        | exact sizeOf_allOf_lt _
        | exact sizeOf_notSchema_lt _ _ (by assumption)
        | exact sizeOf_dependencies_lt _
        | exact sizeOf_itemsChildren_lt _
        | exact sizeOf_itemsHead_lt _ _ _ (by assumption)
        | exact sizeOf_additionalItems_schema_lt _ _ (by assumption)
        | exact sizeOf_patternProperties_lt _
        | exact sizeOf_propertiesChildren_lt _
        | exact sizeOf_lookupDependency_lt _ _ _ (by assumption)
        | omega
        | (simp only [List.cons.sizeOf_spec, Prod.mk.sizeOf_spec,
            List.length_cons]; omega))
    | (apply Prod.Lex.right; first
        | omega
        | (simp only [List.length_cons]; omega)
        | (apply Prod.Lex.left; omega)
        | (apply Prod.Lex.left; simp only [List.length_cons]; omega)
        | (apply Prod.Lex.right; omega)
        | (apply Prod.Lex.right; simp only [List.length_cons]; omega))

/-- The `not` section of `validateSchema`: the sub-schema must fail;
when it validates, add a `not` error (sub-errors are dropped). -/
def validateSchemaNot (currentSubSchema : SubSchema)
    (currentNode : JsonValue) (result : Result) (context : List String) :
    Result :=
  match h : currentSubSchema.f.notSchema with
  | some notS =>
      if (subValidateWithContext notS currentNode context).Valid then
        result.addError context KEY_NOT (some (.schema notS))
      else result
  | none => result
termination_by (sizeOf currentSubSchema, 6, 0)
decreasing_by
  all_goals (try simp_wf)
  all_goals first
    | (apply Prod.Lex.left; first
        | assumption
        | exact sizeOf_refSchema_lt _ _ (by assumption)
        | exact sizeOf_anyOf_lt _
        | exact sizeOf_oneOf_lt _
        | exact sizeOf_allOf_lt _
        | exact sizeOf_notSchema_lt _ _ (by assumption)
        | exact sizeOf_dependencies_lt _
        | exact sizeOf_itemsChildren_lt _
        | exact sizeOf_itemsHead_lt _ _ _ (by assumption)
        | exact sizeOf_additionalItems_schema_lt _ _ (by assumption)
        | exact sizeOf_patternProperties_lt _
        | exact sizeOf_propertiesChildren_lt _
        | exact sizeOf_lookupDependency_lt _ _ _ (by assumption)
        | omega
        | (simp only [List.cons.sizeOf_spec, Prod.mk.sizeOf_spec,
            List.length_cons]; omega))
    | (apply Prod.Lex.right; first
        | omega
        | (simp only [List.length_cons]; omega)
        | (apply Prod.Lex.left; omega)
        | (apply Prod.Lex.left; simp only [List.length_cons]; omega)
        | (apply Prod.Lex.right; omega)
        | (apply Prod.Lex.right; simp only [List.length_cons]; omega))

/-- The `dependencies` section of `validateSchema`: only object values
are inspected; each present key with an entry runs its dependency. -/
def validateSchemaDependencies (currentSubSchema : SubSchema)
    (currentNode : JsonValue) (result : Result) (context : List String) :
    Result :=
  if currentSubSchema.f.dependencies.length > 0 then
    match currentNode with
    | .obj kvs =>
        dependenciesLoop currentSubSchema.f.dependencies kvs kvs result
          context
    | _ => result
  else result
termination_by (sizeOf currentSubSchema, 6, 0)
decreasing_by
  all_goals (try simp_wf)
  all_goals first
    | (apply Prod.Lex.left; first
        | assumption
        | exact sizeOf_refSchema_lt _ _ (by assumption)
        | exact sizeOf_anyOf_lt _
        | exact sizeOf_oneOf_lt _
        | exact sizeOf_allOf_lt _
        | exact sizeOf_notSchema_lt _ _ (by assumption)
        | exact sizeOf_dependencies_lt _
        | exact sizeOf_itemsChildren_lt _
        | exact sizeOf_itemsHead_lt _ _ _ (by assumption)
        | exact sizeOf_additionalItems_schema_lt _ _ (by assumption)
        | exact sizeOf_patternProperties_lt _
        | exact sizeOf_propertiesChildren_lt _
        | exact sizeOf_lookupDependency_lt _ _ _ (by assumption)
        | omega
        | (simp only [List.cons.sizeOf_spec, Prod.mk.sizeOf_spec,
            List.length_cons]; omega))
    | (apply Prod.Lex.right; first
        | omega
        | (simp only [List.length_cons]; omega)
        | (apply Prod.Lex.left; omega)
        | (apply Prod.Lex.left; simp only [List.length_cons]; omega)
        | (apply Prod.Lex.right; omega)
        | (apply Prod.Lex.right; simp only [List.length_cons]; omega))

/-- Schema-level assertions (`validateSchema`): `anyOf` (short-circuit
on the first valid alternative, else best-match merge or summary error),
`oneOf` (count successes; exactly one is ok, zero picks the best failure
or the summary, two or more give the summary), `allOf` (merge every
sub-result, summary error unless all succeeded), `not` (error when the
sub-schema succeeds, sub-errors dropped) and `dependencies` on object
values; ends with the +1 completion score.  The five keyword sections of
the one Go function are factored into the five `validateSchema…`
helpers above, applied in source order. -/
def validateSchema (currentSubSchema : SubSchema) (currentNode : JsonValue)
    (result : Result) (context : List String) : Result :=
  let res1 := validateSchemaAnyOf currentSubSchema currentNode result
    context
  let res2 := validateSchemaOneOf currentSubSchema currentNode res1 context
  let res3 := validateSchemaAllOf currentSubSchema currentNode res2 context
  let res4 := validateSchemaNot currentSubSchema currentNode res3 context
  let res5 := validateSchemaDependencies currentSubSchema currentNode res4
    context
  res5.incrementScore
termination_by (sizeOf currentSubSchema, 7, 0)
decreasing_by
  all_goals (try simp_wf)
  all_goals first
    | (apply Prod.Lex.left; first
        | assumption
        | exact sizeOf_refSchema_lt _ _ (by assumption)
        | exact sizeOf_anyOf_lt _
        | exact sizeOf_oneOf_lt _
        | exact sizeOf_allOf_lt _
        | exact sizeOf_notSchema_lt _ _ (by assumption)
        | exact sizeOf_dependencies_lt _
        | exact sizeOf_itemsChildren_lt _
        | exact sizeOf_itemsHead_lt _ _ _ (by assumption)
        | exact sizeOf_additionalItems_schema_lt _ _ (by assumption)
        | exact sizeOf_patternProperties_lt _
        | exact sizeOf_propertiesChildren_lt _
        | exact sizeOf_lookupDependency_lt _ _ _ (by assumption)
        | omega
        | (simp only [List.cons.sizeOf_spec, Prod.mk.sizeOf_spec,
            List.length_cons]; omega))
    | (apply Prod.Lex.right; first
        | omega
        | (simp only [List.length_cons]; omega)
        | (apply Prod.Lex.left; omega)
        | (apply Prod.Lex.left; simp only [List.length_cons]; omega)
        | (apply Prod.Lex.right; omega)
        | (apply Prod.Lex.right; simp only [List.length_cons]; omega))

/-- The `anyOf` loop of `validateSchema`: once an alternative validates,
the remaining iterations do nothing; each tried alternative's result is
appended to the list handed to `getBestResult`. -/
def anyOfLoop (schemas : List SubSchema) (currentNode : JsonValue)
    (context : List String) (validatedAnyOf : Bool)
    (results : List Result) : Bool × List Result :=
  match schemas with
  | [] => (validatedAnyOf, results)
  | anyOfSchema :: rest =>
    if !validatedAnyOf then
      let validationResult := subValidateWithContext anyOfSchema currentNode
        context
      anyOfLoop rest currentNode context validationResult.Valid
        (results ++ [validationResult])
    else anyOfLoop rest currentNode context validatedAnyOf results
termination_by (sizeOf schemas, 10, 0)
decreasing_by
  all_goals (try simp_wf)
  all_goals first
    | (apply Prod.Lex.left; first
        | assumption
        | exact sizeOf_refSchema_lt _ _ (by assumption)
        | exact sizeOf_anyOf_lt _
        | exact sizeOf_oneOf_lt _
        | exact sizeOf_allOf_lt _
        | exact sizeOf_notSchema_lt _ _ (by assumption)
        | exact sizeOf_dependencies_lt _
        | exact sizeOf_itemsChildren_lt _
        | exact sizeOf_itemsHead_lt _ _ _ (by assumption)
        | exact sizeOf_additionalItems_schema_lt _ _ (by assumption)
        | exact sizeOf_patternProperties_lt _
        | exact sizeOf_propertiesChildren_lt _
        | exact sizeOf_lookupDependency_lt _ _ _ (by assumption)
        | omega
        | (simp only [List.cons.sizeOf_spec, Prod.mk.sizeOf_spec,
            List.length_cons]; omega))
    | (apply Prod.Lex.right; first
        | omega
        | (simp only [List.length_cons]; omega)
        | (apply Prod.Lex.left; omega)
        | (apply Prod.Lex.left; simp only [List.length_cons]; omega)
        | (apply Prod.Lex.right; omega)
        | (apply Prod.Lex.right; simp only [List.length_cons]; omega))

/-- The `oneOf` loop of `validateSchema`: count valid alternatives and
collect the failed results. -/
def oneOfLoop (schemas : List SubSchema) (currentNode : JsonValue)
    (context : List String) (nbValidated : Nat) (results : List Result) :
    Nat × List Result :=
  match schemas with
  | [] => (nbValidated, results)
  | oneOfSchema :: rest =>
    let validationResult := subValidateWithContext oneOfSchema currentNode
      context
    if validationResult.Valid then
      oneOfLoop rest currentNode context (nbValidated + 1) results
    else
      oneOfLoop rest currentNode context nbValidated
        (results ++ [validationResult])
termination_by (sizeOf schemas, 10, 0)
decreasing_by
  all_goals (try simp_wf)
  all_goals first
    | (apply Prod.Lex.left; first
        | assumption
        | exact sizeOf_refSchema_lt _ _ (by assumption)
        | exact sizeOf_anyOf_lt _
        | exact sizeOf_oneOf_lt _
        | exact sizeOf_allOf_lt _
        | exact sizeOf_notSchema_lt _ _ (by assumption)
        | exact sizeOf_dependencies_lt _
        | exact sizeOf_itemsChildren_lt _
        | exact sizeOf_itemsHead_lt _ _ _ (by assumption)
        | exact sizeOf_additionalItems_schema_lt _ _ (by assumption)
        | exact sizeOf_patternProperties_lt _
        | exact sizeOf_propertiesChildren_lt _
        | exact sizeOf_lookupDependency_lt _ _ _ (by assumption)
        | omega
        | (simp only [List.cons.sizeOf_spec, Prod.mk.sizeOf_spec,
            List.length_cons]; omega))
    | (apply Prod.Lex.right; first
        | omega
        | (simp only [List.length_cons]; omega)
        | (apply Prod.Lex.left; omega)
        | (apply Prod.Lex.left; simp only [List.length_cons]; omega)
        | (apply Prod.Lex.right; omega)
        | (apply Prod.Lex.right; simp only [List.length_cons]; omega))

/-- The `allOf` loop of `validateSchema`: count valid alternatives and
merge every sub-result (errors and score) into the parent. -/
def allOfLoop (schemas : List SubSchema) (currentNode : JsonValue)
    (context : List String) (nbValidated : Nat) (res : Result) :
    Nat × Result :=
  match schemas with
  | [] => (nbValidated, res)
  | allOfSchema :: rest =>
    let validationResult := subValidateWithContext allOfSchema currentNode
      context
    allOfLoop rest currentNode context
      (if validationResult.Valid then nbValidated + 1 else nbValidated)
      (res.mergeErrors validationResult)
termination_by (sizeOf schemas, 10, 0)
decreasing_by
  all_goals (try simp_wf)
  all_goals first
    | (apply Prod.Lex.left; first
        | assumption
        | exact sizeOf_refSchema_lt _ _ (by assumption)
        | exact sizeOf_anyOf_lt _
        | exact sizeOf_oneOf_lt _
        | exact sizeOf_allOf_lt _
        | exact sizeOf_notSchema_lt _ _ (by assumption)
        | exact sizeOf_dependencies_lt _
        | exact sizeOf_itemsChildren_lt _
        | exact sizeOf_itemsHead_lt _ _ _ (by assumption)
        | exact sizeOf_additionalItems_schema_lt _ _ (by assumption)
        | exact sizeOf_patternProperties_lt _
        | exact sizeOf_propertiesChildren_lt _
        | exact sizeOf_lookupDependency_lt _ _ _ (by assumption)
        | omega
        | (simp only [List.cons.sizeOf_spec, Prod.mk.sizeOf_spec,
            List.length_cons]; omega))
    | (apply Prod.Lex.right; first
        | omega
        | (simp only [List.length_cons]; omega)
        | (apply Prod.Lex.left; omega)
        | (apply Prod.Lex.left; simp only [List.length_cons]; omega)
        | (apply Prod.Lex.right; omega)
        | (apply Prod.Lex.right; simp only [List.length_cons]; omega))

/-- The `dependencies` loop of `validateSchema`: for each key of the
object that has an entry in `dependencies`, either check that every
listed property name is present (a `dependencies` error at the
triggering key's sub-context otherwise) or validate the whole object
against the dependency schema with the parent context. -/
def dependenciesLoop (deps : List (String × SchemaOrStrings SubSchema))
    (kvsAll : List (String × JsonValue))
    (kvsRest : List (String × JsonValue)) (res : Result)
    (context : List String) : Result :=
  match kvsRest with
  | [] => res
  | (elementKey, _) :: rest =>
    let res1 :=
      match h : lookupDependency deps elementKey with
      | some (.strings dependency) =>
          dependency.foldl
            (fun r dependOnKey =>
              if (lookupJson kvsAll dependOnKey).isNone then
                r.addError (newJsonContext elementKey context)
                  KEY_DEPENDENCIES (some (.strs dependency))
              else r)
            res
      | some (.schema dependency) =>
          validateRecursive dependency (.obj kvsAll) res context
      | none => res
    dependenciesLoop deps kvsAll rest res1 context
termination_by (sizeOf deps, 10, kvsRest.length)
decreasing_by
  all_goals (try simp_wf)
  all_goals first
    | (apply Prod.Lex.left; first
        | assumption
        | exact sizeOf_refSchema_lt _ _ (by assumption)
        | exact sizeOf_anyOf_lt _
        | exact sizeOf_oneOf_lt _
        | exact sizeOf_allOf_lt _
        | exact sizeOf_notSchema_lt _ _ (by assumption)
        | exact sizeOf_dependencies_lt _
        | exact sizeOf_itemsChildren_lt _
        | exact sizeOf_itemsHead_lt _ _ _ (by assumption)
        | exact sizeOf_additionalItems_schema_lt _ _ (by assumption)
        | exact sizeOf_patternProperties_lt _
        | exact sizeOf_propertiesChildren_lt _
        | exact sizeOf_lookupDependency_lt _ _ _ (by assumption)
        | omega
        | (simp only [List.cons.sizeOf_spec, Prod.mk.sizeOf_spec,
            List.length_cons]; omega))
    | (apply Prod.Lex.right; first
        | omega
        | (simp only [List.length_cons]; omega)
        | (apply Prod.Lex.left; omega)
        | (apply Prod.Lex.left; simp only [List.length_cons]; omega)
        | (apply Prod.Lex.right; omega)
        | (apply Prod.Lex.right; simp only [List.length_cons]; omega))

/-- Array assertions (`validateArray`): single-schema or tuple `items`
with `additionalItems`, then `minItems`/`maxItems`, then `uniqueItems`;
ends with the +1 completion score.  In the tuple branch elements are
validated one-to-one only when the lengths coincide; with more values
than tuple entries `additionalItems` decides (a single error for
`false`, per-element validation for a schema), and with fewer, nothing
happens. -/
def validateArray (currentSubSchema : SubSchema) (value : List JsonValue)
    (result : Result) (context : List String) : Result :=
  let nbItems := value.length
  let res1 :=
    if currentSubSchema.f.itemsChildrenIsSingleSchema then
      match h : currentSubSchema.f.itemsChildren with
      | c :: _ => singleItemsLoop c value 0 result context
      | [] => result
    else
      if currentSubSchema.f.itemsChildren.length > 0 then
        let nbItemsChildren := currentSubSchema.f.itemsChildren.length
        let nbValues := value.length
        if nbItemsChildren = nbValues then
          tupleItemsLoop currentSubSchema.f.itemsChildren value 0 result
            context
        else if nbItemsChildren < nbValues then
          match h : currentSubSchema.f.additionalItems with
          | some (.bool b) =>
              if !b then
                result.addError context KEY_ADDITIONAL_ITEMS
                  (some (.bool b))
              else result
          | some (.schema additionalItemSchema) =>
              additionalItemsLoop additionalItemSchema
                (value.drop nbItemsChildren) nbItemsChildren result context
          | none => result
        else result
      else result
  let res2 :=
    match currentSubSchema.f.minItems with
    | some m =>
        if (nbItems : Int) < m then
          res1.addError context KEY_MIN_ITEMS (some (.int m))
        else res1
    | none => res1
  let res3 :=
    match currentSubSchema.f.maxItems with
    | some m =>
        if (nbItems : Int) > m then
          res2.addError context KEY_MAX_ITEMS (some (.int m))
        else res2
    | none => res2
  let res4 :=
    if currentSubSchema.f.uniqueItems = some true then
      uniqueItemsLoop value [] res3 context
    else res3
  res4.incrementScore
termination_by (sizeOf currentSubSchema, 7, 0)
decreasing_by
  all_goals (try simp_wf)
  all_goals first
    | (apply Prod.Lex.left; first
        | assumption
        | exact sizeOf_refSchema_lt _ _ (by assumption)
        | exact sizeOf_anyOf_lt _
        | exact sizeOf_oneOf_lt _
        | exact sizeOf_allOf_lt _
        | exact sizeOf_notSchema_lt _ _ (by assumption)
        | exact sizeOf_dependencies_lt _
        | exact sizeOf_itemsChildren_lt _
        | exact sizeOf_itemsHead_lt _ _ _ (by assumption)
        | exact sizeOf_additionalItems_schema_lt _ _ (by assumption)
        | exact sizeOf_patternProperties_lt _
        | exact sizeOf_propertiesChildren_lt _
        | exact sizeOf_lookupDependency_lt _ _ _ (by assumption)
        | omega
        | (simp only [List.cons.sizeOf_spec, Prod.mk.sizeOf_spec,
            List.length_cons]; omega))
    | (apply Prod.Lex.right; first
        | omega
        | (simp only [List.length_cons]; omega)
        | (apply Prod.Lex.left; omega)
        | (apply Prod.Lex.left; simp only [List.length_cons]; omega)
        | (apply Prod.Lex.right; omega)
        | (apply Prod.Lex.right; simp only [List.length_cons]; omega))

/-- The single-schema `items` loop of `validateArray`: validate every
element against the one child schema, with the decimal index as
sub-context, merging each sub-result. -/
def singleItemsLoop (c : SubSchema) (elems : List JsonValue) (i : Nat)
    (res : Result) (context : List String) : Result :=
  match elems with
  | [] => res
  | x :: rest =>
    let subContext := newJsonContext (toString i) context
    let validationResult := subValidateWithContext c x subContext
    singleItemsLoop c rest (i + 1) (res.mergeErrors validationResult)
      context
termination_by (sizeOf c, 10, elems.length)
decreasing_by
  all_goals (try simp_wf)
  all_goals first
    | (apply Prod.Lex.left; first
        | assumption
        | exact sizeOf_refSchema_lt _ _ (by assumption)
        | exact sizeOf_anyOf_lt _
        | exact sizeOf_oneOf_lt _
        | exact sizeOf_allOf_lt _
        | exact sizeOf_notSchema_lt _ _ (by assumption)
        | exact sizeOf_dependencies_lt _
        | exact sizeOf_itemsChildren_lt _
        | exact sizeOf_itemsHead_lt _ _ _ (by assumption)
        | exact sizeOf_additionalItems_schema_lt _ _ (by assumption)
        | exact sizeOf_patternProperties_lt _
        | exact sizeOf_propertiesChildren_lt _
        | exact sizeOf_lookupDependency_lt _ _ _ (by assumption)
        | omega
        | (simp only [List.cons.sizeOf_spec, Prod.mk.sizeOf_spec,
            List.length_cons]; omega))
    | (apply Prod.Lex.right; first
        | omega
        | (simp only [List.length_cons]; omega)
        | (apply Prod.Lex.left; omega)
        | (apply Prod.Lex.left; simp only [List.length_cons]; omega)
        | (apply Prod.Lex.right; omega)
        | (apply Prod.Lex.right; simp only [List.length_cons]; omega))

/-- The tuple `items` loop of `validateArray` (equal lengths): validate
element `i` against `items[i]`, merging each sub-result. -/
def tupleItemsLoop (schemas : List SubSchema) (elems : List JsonValue)
    (i : Nat) (res : Result) (context : List String) : Result :=
  match schemas, elems with
  | sch :: srest, x :: xrest =>
    let subContext := newJsonContext (toString i) context
    let validationResult := subValidateWithContext sch x subContext
    tupleItemsLoop srest xrest (i + 1) (res.mergeErrors validationResult)
      context
  | _, _ => res
termination_by (sizeOf schemas, 10, 0)
decreasing_by
  all_goals (try simp_wf)
  all_goals first
    | (apply Prod.Lex.left; first
        | assumption
        | exact sizeOf_refSchema_lt _ _ (by assumption)
        | exact sizeOf_anyOf_lt _
        | exact sizeOf_oneOf_lt _
        | exact sizeOf_allOf_lt _
        | exact sizeOf_notSchema_lt _ _ (by assumption)
        | exact sizeOf_dependencies_lt _
        | exact sizeOf_itemsChildren_lt _
        | exact sizeOf_itemsHead_lt _ _ _ (by assumption)
        | exact sizeOf_additionalItems_schema_lt _ _ (by assumption)
        | exact sizeOf_patternProperties_lt _
        | exact sizeOf_propertiesChildren_lt _
        | exact sizeOf_lookupDependency_lt _ _ _ (by assumption)
        | omega
        | (simp only [List.cons.sizeOf_spec, Prod.mk.sizeOf_spec,
            List.length_cons]; omega))
    | (apply Prod.Lex.right; first
        | omega
        | (simp only [List.length_cons]; omega)
        | (apply Prod.Lex.left; omega)
        | (apply Prod.Lex.left; simp only [List.length_cons]; omega)
        | (apply Prod.Lex.right; omega)
        | (apply Prod.Lex.right; simp only [List.length_cons]; omega))

/-- The `additionalItems`-schema loop of `validateArray`: validate each
element beyond the tuple against the additional-items schema, indexed
sub-context, merging each sub-result. -/
def additionalItemsLoop (additionalItemSchema : SubSchema)
    (elems : List JsonValue) (i : Nat) (res : Result)
    (context : List String) : Result :=
  match elems with
  | [] => res
  | x :: rest =>
    let subContext := newJsonContext (toString i) context
    let validationResult := subValidateWithContext additionalItemSchema x
      subContext
    additionalItemsLoop additionalItemSchema rest (i + 1)
      (res.mergeErrors validationResult) context
termination_by (sizeOf additionalItemSchema, 10, elems.length)
decreasing_by
  all_goals (try simp_wf)
  all_goals first
    | (apply Prod.Lex.left; first
        | assumption
        | exact sizeOf_refSchema_lt _ _ (by assumption)
        | exact sizeOf_anyOf_lt _
        | exact sizeOf_oneOf_lt _
        | exact sizeOf_allOf_lt _
        | exact sizeOf_notSchema_lt _ _ (by assumption)
        | exact sizeOf_dependencies_lt _
        | exact sizeOf_itemsChildren_lt _
        | exact sizeOf_itemsHead_lt _ _ _ (by assumption)
        | exact sizeOf_additionalItems_schema_lt _ _ (by assumption)
        | exact sizeOf_patternProperties_lt _
        | exact sizeOf_propertiesChildren_lt _
        | exact sizeOf_lookupDependency_lt _ _ _ (by assumption)
        | omega
        | (simp only [List.cons.sizeOf_spec, Prod.mk.sizeOf_spec,
            List.length_cons]; omega))
    | (apply Prod.Lex.right; first
        | omega
        | (simp only [List.length_cons]; omega)
        | (apply Prod.Lex.left; omega)
        | (apply Prod.Lex.left; simp only [List.length_cons]; omega)
        | (apply Prod.Lex.right; omega)
        | (apply Prod.Lex.right; simp only [List.length_cons]; omega))

/-- Object assertions (`validateObject`): `minProperties` /
`maxProperties`, `required`, then the `additionalProperties` /
`patternProperties` interplay, dispatching on the three shapes of
`additionalProperties` (`false`, schema, absent or `true`); ends with
the +1 completion score. -/
def validateObject (currentSubSchema : SubSchema)
    (value : List (String × JsonValue)) (result : Result)
    (context : List String) : Result :=
  let res1 :=
    match currentSubSchema.f.minProperties with
    | some m =>
        if (value.length : Int) < m then
          result.addError context KEY_MIN_PROPERTIES (some (.int m))
        else result
    | none => result
  let res2 :=
    match currentSubSchema.f.maxProperties with
    | some m =>
        if (value.length : Int) > m then
          res1.addError context KEY_MAX_PROPERTIES (some (.int m))
        else res1
    | none => res1
  let res3 := requiredLoop value context res2 currentSubSchema.f.required
  let res4 :=
    match h : currentSubSchema.f.additionalProperties with
    | some (.bool b) =>
        if !b then addPropsFalseLoop currentSubSchema value res3 context
        else res3
    | some (.schema additionalPropertiesSchema) =>
        addPropsSchemaLoop currentSubSchema additionalPropertiesSchema
          (sizeOf_additionalProperties_schema_lt currentSubSchema
            additionalPropertiesSchema h) value res3 context
    | none => patternOnlyLoop currentSubSchema value res3 context
  res4.incrementScore
termination_by (sizeOf currentSubSchema, 7, 0)
decreasing_by
  all_goals (try simp_wf)
  all_goals first
    | (apply Prod.Lex.left; first
        | assumption
        | exact sizeOf_refSchema_lt _ _ (by assumption)
        | exact sizeOf_anyOf_lt _
        | exact sizeOf_oneOf_lt _
        | exact sizeOf_allOf_lt _
        | exact sizeOf_notSchema_lt _ _ (by assumption)
        | exact sizeOf_dependencies_lt _
        | exact sizeOf_itemsChildren_lt _
        | exact sizeOf_itemsHead_lt _ _ _ (by assumption)
        | exact sizeOf_additionalItems_schema_lt _ _ (by assumption)
        | exact sizeOf_patternProperties_lt _
        | exact sizeOf_propertiesChildren_lt _
        | exact sizeOf_lookupDependency_lt _ _ _ (by assumption)
        | omega
        | (simp only [List.cons.sizeOf_spec, Prod.mk.sizeOf_spec,
            List.length_cons]; omega))
    | (apply Prod.Lex.right; first
        | omega
        | (simp only [List.length_cons]; omega)
        | (apply Prod.Lex.left; omega)
        | (apply Prod.Lex.left; simp only [List.length_cons]; omega)
        | (apply Prod.Lex.right; omega)
        | (apply Prod.Lex.right; simp only [List.length_cons]; omega))

/-- The `additionalProperties: false` loop of `validateObject`: for each
key, run the pattern properties; a key neither declared nor validated by
some matching pattern — or declared but matched by patterns of which
none validated — yields one `additionalProperties` error at the key's
sub-context. -/
def addPropsFalseLoop (currentSubSchema : SubSchema)
    (kvs : List (String × JsonValue)) (res : Result)
    (context : List String) : Result :=
  match kvs with
  | [] => res
  | (pk, pv) :: rest =>
    let found := currentSubSchema.f.propertiesChildren.any
      (fun spValue => spValue.f.property == pk)
    let ppOut := validatePatternProperty currentSubSchema pk pv res context
    let res2 :=
      if found then
        if ppOut.2.1 && !ppOut.2.2 then
          ppOut.1.addError (newJsonContext pk context)
            KEY_ADDITIONAL_PROPERTIES
            (some (.patterns currentSubSchema.f.patternProperties))
        else ppOut.1
      else
        if !ppOut.2.1 || !ppOut.2.2 then
          ppOut.1.addError (newJsonContext pk context)
            KEY_ADDITIONAL_PROPERTIES none
        else ppOut.1
    addPropsFalseLoop currentSubSchema rest res2 context
termination_by (sizeOf currentSubSchema, 6, kvs.length)
decreasing_by
  all_goals (try simp_wf)
  all_goals first
    | (apply Prod.Lex.left; first
        | assumption
        | exact sizeOf_refSchema_lt _ _ (by assumption)
        | exact sizeOf_anyOf_lt _
        | exact sizeOf_oneOf_lt _
        | exact sizeOf_allOf_lt _
        | exact sizeOf_notSchema_lt _ _ (by assumption)
        | exact sizeOf_dependencies_lt _
        | exact sizeOf_itemsChildren_lt _
        | exact sizeOf_itemsHead_lt _ _ _ (by assumption)
        | exact sizeOf_additionalItems_schema_lt _ _ (by assumption)
        | exact sizeOf_patternProperties_lt _
        | exact sizeOf_propertiesChildren_lt _
        | exact sizeOf_lookupDependency_lt _ _ _ (by assumption)
        | omega
        | (simp only [List.cons.sizeOf_spec, Prod.mk.sizeOf_spec,
            List.length_cons]; omega))
    | (apply Prod.Lex.right; first
        | omega
        | (simp only [List.length_cons]; omega)
        | (apply Prod.Lex.left; omega)
        | (apply Prod.Lex.left; simp only [List.length_cons]; omega)
        | (apply Prod.Lex.right; omega)
        | (apply Prod.Lex.right; simp only [List.length_cons]; omega))

/-- The `additionalProperties`-schema loop of `validateObject`: like the
`false` case, but an uncovered key's value is validated against the
additional-properties schema with the parent context, merging the
sub-result. -/
def addPropsSchemaLoop (currentSubSchema : SubSchema)
    (additionalPropertiesSchema : SubSchema)
    (hsize : sizeOf additionalPropertiesSchema < sizeOf currentSubSchema)
    (kvs : List (String × JsonValue)) (res : Result)
    (context : List String) : Result :=
  match kvs with
  | [] => res
  | (pk, pv) :: rest =>
    let found := currentSubSchema.f.propertiesChildren.any
      (fun spValue => spValue.f.property == pk)
    let ppOut := validatePatternProperty currentSubSchema pk pv res context
    let res2 :=
      if found then
        if ppOut.2.1 && !ppOut.2.2 then
          ppOut.1.mergeErrors
            (subValidateWithContext additionalPropertiesSchema pv context)
        else ppOut.1
      else
        if !ppOut.2.1 || !ppOut.2.2 then
          ppOut.1.mergeErrors
            (subValidateWithContext additionalPropertiesSchema pv context)
        else ppOut.1
    addPropsSchemaLoop currentSubSchema additionalPropertiesSchema hsize
      rest res2 context
termination_by (sizeOf currentSubSchema, 6, kvs.length)
decreasing_by
  all_goals (try simp_wf)
  all_goals first
    | (apply Prod.Lex.left; first
        | assumption
        | exact sizeOf_refSchema_lt _ _ (by assumption)
        | exact sizeOf_anyOf_lt _
        | exact sizeOf_oneOf_lt _
        | exact sizeOf_allOf_lt _
        | exact sizeOf_notSchema_lt _ _ (by assumption)
        | exact sizeOf_dependencies_lt _
        | exact sizeOf_itemsChildren_lt _
        | exact sizeOf_itemsHead_lt _ _ _ (by assumption)
        | exact sizeOf_additionalItems_schema_lt _ _ (by assumption)
        | exact sizeOf_patternProperties_lt _
        | exact sizeOf_propertiesChildren_lt _
        | exact sizeOf_lookupDependency_lt _ _ _ (by assumption)
        | omega
        | (simp only [List.cons.sizeOf_spec, Prod.mk.sizeOf_spec,
            List.length_cons]; omega))
    | (apply Prod.Lex.right; first
        | omega
        | (simp only [List.length_cons]; omega)
        | (apply Prod.Lex.left; omega)
        | (apply Prod.Lex.left; simp only [List.length_cons]; omega)
        | (apply Prod.Lex.right; omega)
        | (apply Prod.Lex.right; simp only [List.length_cons]; omega))

/-- The loop of `validateObject` when `additionalProperties` is absent:
run the pattern properties for each key and report a
`patternProperties` error at the key's sub-context when some pattern
matched but none validated. -/
def patternOnlyLoop (currentSubSchema : SubSchema)
    (kvs : List (String × JsonValue)) (res : Result)
    (context : List String) : Result :=
  match kvs with
  | [] => res
  | (pk, pv) :: rest =>
    let ppOut := validatePatternProperty currentSubSchema pk pv res context
    let res2 :=
      if ppOut.2.1 && !ppOut.2.2 then
        ppOut.1.addError (newJsonContext pk context) KEY_PATTERN_PROPERTIES
          (some (.patterns currentSubSchema.f.patternProperties))
      else ppOut.1
    patternOnlyLoop currentSubSchema rest res2 context
termination_by (sizeOf currentSubSchema, 6, kvs.length)
decreasing_by
  all_goals (try simp_wf)
  all_goals first
    | (apply Prod.Lex.left; first
        | assumption
        | exact sizeOf_refSchema_lt _ _ (by assumption)
        | exact sizeOf_anyOf_lt _
        | exact sizeOf_oneOf_lt _
        | exact sizeOf_allOf_lt _
        | exact sizeOf_notSchema_lt _ _ (by assumption)
        | exact sizeOf_dependencies_lt _
        | exact sizeOf_itemsChildren_lt _
        | exact sizeOf_itemsHead_lt _ _ _ (by assumption)
        | exact sizeOf_additionalItems_schema_lt _ _ (by assumption)
        | exact sizeOf_patternProperties_lt _
        | exact sizeOf_propertiesChildren_lt _
        | exact sizeOf_lookupDependency_lt _ _ _ (by assumption)
        | omega
        | (simp only [List.cons.sizeOf_spec, Prod.mk.sizeOf_spec,
            List.length_cons]; omega))
    | (apply Prod.Lex.right; first
        | omega
        | (simp only [List.length_cons]; omega)
        | (apply Prod.Lex.left; omega)
        | (apply Prod.Lex.left; simp only [List.length_cons]; omega)
        | (apply Prod.Lex.right; omega)
        | (apply Prod.Lex.right; simp only [List.length_cons]; omega))

/-- Pattern-property validation for one key
(`validatePatternProperty`): run every matching pattern's schema against
the value (errors merged into the result), return whether some pattern
matched (`has`) and whether some matching pattern validated
(`matched`); only in the latter case is the +1 score applied. -/
def validatePatternProperty (currentSubSchema : SubSchema) (key : String)
    (value : JsonValue) (result : Result) (context : List String) :
    Result × Bool × Bool :=
  let loopOut := patternPropsLoop currentSubSchema.f.patternProperties key
    value result context false false
  if !loopOut.2.2 then (loopOut.1, loopOut.2.1, false)
  else (loopOut.1.incrementScore, loopOut.2.1, true)
termination_by (sizeOf currentSubSchema, 5, 0)
decreasing_by
  all_goals (try simp_wf)
  all_goals first
    | (apply Prod.Lex.left; first
        | assumption
        | exact sizeOf_refSchema_lt _ _ (by assumption)
        | exact sizeOf_anyOf_lt _
        | exact sizeOf_oneOf_lt _
        | exact sizeOf_allOf_lt _
        | exact sizeOf_notSchema_lt _ _ (by assumption)
        | exact sizeOf_dependencies_lt _
        | exact sizeOf_itemsChildren_lt _
        | exact sizeOf_itemsHead_lt _ _ _ (by assumption)
        | exact sizeOf_additionalItems_schema_lt _ _ (by assumption)
        | exact sizeOf_patternProperties_lt _
        | exact sizeOf_propertiesChildren_lt _
        | exact sizeOf_lookupDependency_lt _ _ _ (by assumption)
        | omega
        | (simp only [List.cons.sizeOf_spec, Prod.mk.sizeOf_spec,
            List.length_cons]; omega))
    | (apply Prod.Lex.right; first
        | omega
        | (simp only [List.length_cons]; omega)
        | (apply Prod.Lex.left; omega)
        | (apply Prod.Lex.left; simp only [List.length_cons]; omega)
        | (apply Prod.Lex.right; omega)
        | (apply Prod.Lex.right; simp only [List.length_cons]; omega))

/-- The loop of `validatePatternProperty` over the `patternProperties`
entries: each matching pattern validates the value at the key's
sub-context, merging the sub-result; `has` records any match and
`validatedkey` any valid match. -/
def patternPropsLoop (pps : List (String × SubSchema)) (key : String)
    (value : JsonValue) (res : Result) (context : List String)
    (has : Bool) (validatedkey : Bool) : Result × Bool × Bool :=
  match pps with
  | [] => (res, has, validatedkey)
  | (pk, pv) :: rest =>
    if regexpMatchString pk key then
      let subContext := newJsonContext key context
      let validationResult := subValidateWithContext pv value subContext
      patternPropsLoop rest key value (res.mergeErrors validationResult)
        context true (validatedkey || validationResult.Valid)
    else patternPropsLoop rest key value res context has validatedkey
termination_by (sizeOf pps, 10, 0)
decreasing_by
  all_goals (try simp_wf)
  all_goals first
    | (apply Prod.Lex.left; first
        | assumption
        | exact sizeOf_refSchema_lt _ _ (by assumption)
        | exact sizeOf_anyOf_lt _
        | exact sizeOf_oneOf_lt _
        | exact sizeOf_allOf_lt _
        | exact sizeOf_notSchema_lt _ _ (by assumption)
        | exact sizeOf_dependencies_lt _
        | exact sizeOf_itemsChildren_lt _
        | exact sizeOf_itemsHead_lt _ _ _ (by assumption)
        | exact sizeOf_additionalItems_schema_lt _ _ (by assumption)
        | exact sizeOf_patternProperties_lt _
        | exact sizeOf_propertiesChildren_lt _
        | exact sizeOf_lookupDependency_lt _ _ _ (by assumption)
        | omega
        | (simp only [List.cons.sizeOf_spec, Prod.mk.sizeOf_spec,
            List.length_cons]; omega))
    | (apply Prod.Lex.right; first
        | omega
        | (simp only [List.length_cons]; omega)
        | (apply Prod.Lex.left; omega)
        | (apply Prod.Lex.left; simp only [List.length_cons]; omega)
        | (apply Prod.Lex.right; omega)
        | (apply Prod.Lex.right; simp only [List.length_cons]; omega))

end

/-- Top-level validation (`Schema.Validate`): a fresh `Result`, the root
context built from `STRING_CONTEXT_ROOT`, then the recursive walk of
the root schema against the loaded document. -/
def SchemaValidate (rootSchema : SubSchema) (root : JsonValue) : Result :=
  validateRecursive rootSchema root {}
    (newJsonContext STRING_CONTEXT_ROOT [])

/-- A walker step on a non-JSON value only increments the score: no case
of the kind switch matches, so no assertion runs and no error can be
recorded, whatever the schema (references included). -/
theorem validateRecursive_other (s : SubSchema) (res : Result)
    (ctx : List String) :
    validateRecursive s .other res ctx = res.incrementScore := by
  rw [validateRecursive.eq_7]
  split
  · exact validateRecursive_other _ res ctx
  · rfl
termination_by sizeOf s
decreasing_by
  all_goals (try simp_wf)
  all_goals exact sizeOf_refSchema_lt _ _ (by assumption)

/-- With no pattern properties, `validatePatternProperty` leaves the
result untouched and reports no match. -/
theorem validatePatternProperty_empty (s : SubSchema) (key : String)
    (value : JsonValue) (res : Result) (ctx : List String)
    (h : s.f.patternProperties = []) :
    validatePatternProperty s key value res ctx = (res, false, false) := by
  rw [validatePatternProperty]
  rw [h]
  rw [patternPropsLoop]
  simp

/-- With no pattern properties, the `additionalProperties`-absent loop
of `validateObject` leaves the result untouched. -/
theorem patternOnlyLoop_empty (s : SubSchema)
    (kvs : List (String × JsonValue)) (res : Result) (ctx : List String)
    (h : s.f.patternProperties = []) :
    patternOnlyLoop s kvs res ctx = res := by
  induction kvs generalizing res with
  | nil => rw [patternOnlyLoop]
  | cons kv rest ih =>
    obtain ⟨pk, pv⟩ := kv
    rw [patternOnlyLoop]
    rw [validatePatternProperty_empty s pk pv res ctx h]
    simpa using ih res

/-- Go `isKind(value, reflect.String)`: the document value is a string. -/
def isKindString : JsonValue → Bool
  | .str _ => true
  | _ => false

/-- Go `isKind(value, reflect.Float64)`: the document value is a JSON
number. -/
def isKindFloat64 : JsonValue → Bool
  | .num _ => true
  | _ => false

/-- Schema `{"type": "string"}`. -/
def strTypeSchema : SubSchema := .mk { types := ⟨[TYPE_STRING]⟩ }

/-- Schema `{"type": "integer"}`. -/
def integerTypeSchema : SubSchema := .mk { types := ⟨[TYPE_INTEGER]⟩ }

/-- Schema `{"minLength": 5}`. -/
def minLengthFiveSchema : SubSchema := .mk { minLength := some 5 }

/-- Schema `{"minLength": 1, "maxLength": 99}`. -/
def minMaxLengthSchema : SubSchema :=
  .mk { minLength := some 1, maxLength := some 99 }

/-- A schema whose only keyword is `anyOf` with a single alternative. -/
def anyOfOnly (a : SubSchema) : SubSchema := .mk { anyOf := [a] }

/-- Schema `{"type": "array", "items": [{"type":"string"},
{"type":"string"}]}` (tuple items, no `additionalItems`). -/
def c2TupleSchema : SubSchema :=
  .mk { types := ⟨[TYPE_ARRAY]⟩
        itemsChildren := [strTypeSchema, strTypeSchema] }

/-- Schema `{"items": [{"type":"string"}], "additionalItems": false}`. -/
def c3TupleSchema : SubSchema :=
  .mk { itemsChildren := [strTypeSchema]
        additionalItems := some (.bool false) }

/-- Schema `{"properties": {"a": {}}, "patternProperties":
{"^a": {"type":"integer"}}, "additionalProperties": false}`. -/
def c5Schema : SubSchema := .mk
  { propertiesChildren := [.mk { property := "a" }]
    patternProperties := [("^a", integerTypeSchema)]
    additionalProperties := some (.bool false) }

/-- Claim C2 (code_bug): the spec requires each element at index
`i < min(k, n)` of a tuple-items array to be validated against
`items[i]` also when `n` differs from `k`; the tuple branch of
`validateArray` only validates elements when `n = k`, so the failing
input `["5", "y", "z"]`-like array `[5, "y", "z"]` (and the short array
`[5]`) validates even though element 0 violates `items[0] = {"type":
"string"}`, which the last conjunct shows fails on its own. -/
theorem c2_tuple_prefix_not_validated :
    (SchemaValidate c2TupleSchema
      (.arr [.num 5, .str "y", .str "z"])).Valid = true ∧
    (SchemaValidate c2TupleSchema (.arr [.num 5])).Valid = true ∧
    (SchemaValidate strTypeSchema (.num 5)).Valid = false := by
  refine ⟨?_, ?_, ?_⟩ <;>
  simp [SchemaValidate, validateRecursive, validateSchema,
    validateSchemaAnyOf, validateSchemaOneOf, validateSchemaAllOf,
    validateSchemaNot, validateSchemaDependencies, validateCommon,
    validateString, validateNumber, validateArray, validateObject,
    validatePatternProperty, patternPropsLoop, patternOnlyLoop,
    addPropsFalseLoop, addPropsSchemaLoop, propertiesLoop, anyOfLoop,
    oneOfLoop, allOfLoop, dependenciesLoop, singleItemsLoop,
    tupleItemsLoop, additionalItemsLoop, uniqueItemsLoop, requiredLoop,
    subValidateWithContext, getBestResult, Result.addError,
    Result.mergeErrors, Result.incrementScore, Result.Valid, SubSchema.f,
    JsonSchemaType.IsTyped, JsonSchemaType.Contains,
    JsonSchemaType.typesString, SubSchema.ContainsEnum, newJsonContext,
    lookupJson, regexpMatchString, isFloat64AnInteger, emptySchema,
    strTypeSchema, c2TupleSchema, KEY_TYPE, TYPE_STRING, TYPE_ARRAY,
    TYPE_NUMBER, TYPE_INTEGER]

/-- Claim C7, counterexample: two successful assertions (`minLength`,
`maxLength`) leave the score exactly where the assertion-free empty
schema leaves it, so a successful assertion does not strictly increase
the score by +1; the +1 is per completed validation routine. -/
theorem c7_counterexample :
    (SchemaValidate minMaxLengthSchema (.str "abc")).Valid = true ∧
    (SchemaValidate emptySchema (.str "abc")).Valid = true ∧
    (SchemaValidate minMaxLengthSchema (.str "abc")).score =
      (SchemaValidate emptySchema (.str "abc")).score := by
  refine ⟨?_, ?_, ?_⟩ <;>
  simp only [SchemaValidate, validateRecursive, validateSchema,
    validateSchemaAnyOf, validateSchemaOneOf, validateSchemaAllOf,
    validateSchemaNot, validateSchemaDependencies, validateCommon,
    validateString, validateNumber, subValidateWithContext,
    Result.addError, Result.mergeErrors, Result.incrementScore,
    SubSchema.f, JsonSchemaType.IsTyped, JsonSchemaType.Contains,
    JsonSchemaType.typesString, SubSchema.ContainsEnum, newJsonContext,
    emptySchema, minMaxLengthSchema] <;> decide

/-- Claim C7 (corrected): the real score arithmetic of `result.go`:
`addError` appends exactly one error and applies −2 to the score (the
net −1 is against the single +1 a validation routine adds on
completion, not per assertion), and `incrementScore` adds +1 and leaves
the errors alone. -/
theorem c7_score_arithmetic (r : Result) (ctx : List String)
    (attr : String) (req : Option Req) :
    (r.addError ctx attr req).score = r.score - 2 ∧
    (r.addError ctx attr req).errors = r.errors ++ [⟨ctx, attr, req⟩] ∧
    r.incrementScore.score = r.score + 1 ∧
    r.incrementScore.errors = r.errors := by
  simp [Result.addError, Result.incrementScore]

/-- Claim C8, counterexample: an error produced at the document root
renders its location as `#` — the source constant `STRING_CONTEXT_ROOT`
is `"#"` — and not as `(root)`. -/
theorem c8_counterexample :
    ((SchemaValidate strTypeSchema (.bool true)).errors.map
      (fun e => ctxString e.Context)) = ["#"] ∧
    ("#" : String) ≠ "(root)" := by
  constructor
  · simp [SchemaValidate, validateRecursive, validateSchema,
      validateSchemaAnyOf, validateSchemaOneOf, validateSchemaAllOf,
      validateSchemaNot, validateSchemaDependencies, validateCommon,
      validateString, validateNumber, subValidateWithContext,
      Result.addError, Result.mergeErrors, Result.incrementScore,
      Result.Valid, SubSchema.f, JsonSchemaType.IsTyped,
      JsonSchemaType.Contains, JsonSchemaType.typesString,
      SubSchema.ContainsEnum, newJsonContext, strTypeSchema, ctxString,
      TYPE_STRING, TYPE_BOOLEAN]
    decide
  · decide

/-- Claim C8 (corrected): the root context renders as `#` (the source's
`STRING_CONTEXT_ROOT`), and a nested context renders as `#` followed by
the dot-joined segments with array indices in decimal. -/
theorem c8_context_rendering :
    ctxString (newJsonContext STRING_CONTEXT_ROOT []) = "#" ∧
    ctxString
      (newJsonContext "subfield"
        (newJsonContext "0"
          (newJsonContext "field"
            (newJsonContext STRING_CONTEXT_ROOT [])))) =
      "#.field.0.subfield" := by
  constructor <;> rfl

/-- Claim C9 (confirmed): a non-nil value whose reflect kind is none of
slice, map, bool, string, float64 falls through the kind switch of
`validateRecursive`: no error is recorded (no type error either,
whatever the type set), only the completion score is added, and the
value validates against every schema. -/
theorem c9_nonjson_values_validate (s : SubSchema) (res : Result)
    (ctx : List String) :
    validateRecursive s .other res ctx = res.incrementScore ∧
    (SchemaValidate s .other).errors = [] ∧
    (SchemaValidate s .other).score = 1 ∧
    (SchemaValidate s .other).Valid = true := by
  refine ⟨validateRecursive_other s res ctx, ?_, ?_, ?_⟩ <;>
    rw [SchemaValidate, validateRecursive_other] <;> rfl

/-- Claim C10 (confirmed): `validateString` returns the result untouched
on every non-string value, and `validateNumber` on every non-number
value, so the cross-calls `validateRecursive` makes for bool, string
and number nodes never alter the outcome. -/
theorem c10_validateString_validateNumber_frame (s : SubSchema)
    (v : JsonValue) (res : Result) (ctx : List String) :
    (isKindString v = false → validateString s v res ctx = res) ∧
    (isKindFloat64 v = false → validateNumber s v res ctx = res) := by
  constructor <;> intro h <;> cases v <;>
    first
      | rfl
      | simp [isKindString, isKindFloat64] at h

/-- Witness for C10 at concrete inputs: the cross-calls of the bool case
leave a fresh result untouched. -/
theorem c10_witness :
    validateString emptySchema (.bool true) {} [STRING_CONTEXT_ROOT] =
      {} ∧
    validateNumber emptySchema (.str "x") {} [STRING_CONTEXT_ROOT] =
      {} :=
  ⟨(c10_validateString_validateNumber_frame emptySchema (.bool true) {}
      [STRING_CONTEXT_ROOT]).1 rfl,
    (c10_validateString_validateNumber_frame emptySchema (.str "x") {}
      [STRING_CONTEXT_ROOT]).2 rfl⟩

/-- Key lemma for C1: a schema whose only keyword is a one-alternative
`anyOf` appends exactly the single generic `anyOf` summary error when
the alternative fails, and nothing when it succeeds — the alternative's
own errors are never merged, because `getBestResult` returns nothing on
a one-element list. -/
theorem validateRecursive_anyOfOnly_errors (a : SubSchema)
    (v : JsonValue) (res : Result) (ctx : List String) :
    (validateRecursive (anyOfOnly a) v res ctx).errors =
      res.errors ++
        (if (subValidateWithContext a v ctx).Valid then []
         else [⟨ctx, KEY_ANY_OF, some (.schemas [a])⟩]) := by
  cases v with
  | null =>
    rw [validateRecursive.eq_1]
    simp [anyOfOnly, SubSchema.f, JsonSchemaType.IsTyped,
      JsonSchemaType.Contains, JsonSchemaType.typesString,
      validateSchema, validateSchemaAnyOf, validateSchemaOneOf,
      validateSchemaAllOf, validateSchemaNot, validateSchemaDependencies,
      validateCommon, anyOfLoop, getBestResult,
      SubSchema.ContainsEnum, Result.addError, Result.mergeErrors,
      Result.incrementScore]
    cases hv : (subValidateWithContext a .null ctx).Valid <;>
      simp [hv, Result.addError]
  | bool b =>
    rw [validateRecursive.eq_2]
    simp [anyOfOnly, SubSchema.f, JsonSchemaType.IsTyped,
      JsonSchemaType.Contains, JsonSchemaType.typesString,
      validateSchema, validateSchemaAnyOf, validateSchemaOneOf,
      validateSchemaAllOf, validateSchemaNot, validateSchemaDependencies,
      validateCommon, validateString, validateNumber, anyOfLoop, getBestResult,
      SubSchema.ContainsEnum, Result.addError, Result.mergeErrors,
      Result.incrementScore]
    cases hv : (subValidateWithContext a (.bool b) ctx).Valid <;>
      simp [hv, Result.addError]
  | num q =>
    rw [validateRecursive.eq_4]
    simp [anyOfOnly, SubSchema.f, JsonSchemaType.IsTyped,
      JsonSchemaType.Contains, JsonSchemaType.typesString,
      validateSchema, validateSchemaAnyOf, validateSchemaOneOf,
      validateSchemaAllOf, validateSchemaNot, validateSchemaDependencies,
      validateCommon, validateString, validateNumber, anyOfLoop, getBestResult,
      SubSchema.ContainsEnum, Result.addError, Result.mergeErrors,
      Result.incrementScore]
    cases hv : (subValidateWithContext a (.num q) ctx).Valid <;>
      simp [hv, Result.addError]
  | str t =>
    rw [validateRecursive.eq_3]
    simp [anyOfOnly, SubSchema.f, JsonSchemaType.IsTyped,
      JsonSchemaType.Contains, JsonSchemaType.typesString,
      validateSchema, validateSchemaAnyOf, validateSchemaOneOf,
      validateSchemaAllOf, validateSchemaNot, validateSchemaDependencies,
      validateCommon, validateString, validateNumber, anyOfLoop, getBestResult,
      SubSchema.ContainsEnum, Result.addError, Result.mergeErrors,
      Result.incrementScore]
    cases hv : (subValidateWithContext a (.str t) ctx).Valid <;>
      simp [hv, Result.addError]
  | arr xs =>
    rw [validateRecursive.eq_5]
    simp [anyOfOnly, SubSchema.f, JsonSchemaType.IsTyped,
      JsonSchemaType.Contains, JsonSchemaType.typesString,
      validateSchema, validateSchemaAnyOf, validateSchemaOneOf,
      validateSchemaAllOf, validateSchemaNot, validateSchemaDependencies,
      validateCommon, validateArray, anyOfLoop, getBestResult,
      SubSchema.ContainsEnum, Result.addError, Result.mergeErrors,
      Result.incrementScore]
    cases hv : (subValidateWithContext a (.arr xs) ctx).Valid <;>
      simp [hv, Result.addError]
  | obj kvs =>
    rw [validateRecursive.eq_6]
    simp [anyOfOnly, SubSchema.f, JsonSchemaType.IsTyped,
      JsonSchemaType.Contains, JsonSchemaType.typesString,
      validateSchema, validateSchemaAnyOf, validateSchemaOneOf,
      validateSchemaAllOf, validateSchemaNot, validateSchemaDependencies,
      validateCommon, validateObject, requiredLoop, propertiesLoop,
      patternOnlyLoop_empty, anyOfLoop, getBestResult,
      SubSchema.ContainsEnum, Result.addError, Result.mergeErrors,
      Result.incrementScore]
    cases hv : (subValidateWithContext a (.obj kvs) ctx).Valid <;>
      simp [hv, Result.addError]
  | other =>
    rw [validateRecursive_other]
    have hsub : subValidateWithContext a .other ctx =
        Result.incrementScore {} := by
      rw [subValidateWithContext, validateRecursive_other]
    simp [hsub, Result.incrementScore, Result.Valid]

/-- Claim C1 (corrected): a schema whose only keyword is an `anyOf`
with exactly one alternative yields the same validity as validating the
value directly against that alternative; but the recorded errors are
not the same when the alternative fails: `getBestResult` returns
nothing for a one-element result list, so the parent records exactly
one generic `anyOf` summary error instead of the alternative's merged
errors. -/
theorem c1_anyOf_single_alternative (a : SubSchema) (v : JsonValue) :
    (SchemaValidate (anyOfOnly a) v).Valid = (SchemaValidate a v).Valid ∧
    ((SchemaValidate a v).Valid = false →
      (SchemaValidate (anyOfOnly a) v).errors.map (fun e => e.Attribute) =
        [KEY_ANY_OF]) := by
  have h := validateRecursive_anyOfOnly_errors a v {}
    (newJsonContext STRING_CONTEXT_ROOT [])
  have hs : SchemaValidate a v =
      subValidateWithContext a v (newJsonContext STRING_CONTEXT_ROOT []) := by
    rw [SchemaValidate, subValidateWithContext]
  constructor
  · rw [hs]
    cases hv : (subValidateWithContext a v
        (newJsonContext STRING_CONTEXT_ROOT [])).Valid <;>
      simp [Result.Valid, SchemaValidate, h, hv] <;>
      simp [Result.Valid] at hv <;> simp [hv]
  · intro hfail
    rw [hs] at hfail
    simp [SchemaValidate, h, hfail]

/-- Witness for C1 at a concrete input: the lone alternative
`{"type":"string"}` fails on `true`, and the anyOf-only parent then
carries exactly the generic summary error. -/
theorem c1_witness :
    (SchemaValidate (anyOfOnly strTypeSchema) (.bool true)).errors.map
      (fun e => e.Attribute) = [KEY_ANY_OF] :=
  (c1_anyOf_single_alternative strTypeSchema (.bool true)).2 (by
    simp only [SchemaValidate, validateRecursive, validateSchema,
      validateSchemaAnyOf, validateSchemaOneOf, validateSchemaAllOf,
      validateSchemaNot, validateSchemaDependencies, validateCommon,
      validateString, validateNumber, subValidateWithContext,
      Result.addError, Result.mergeErrors, Result.incrementScore,
      SubSchema.f, JsonSchemaType.IsTyped, JsonSchemaType.Contains,
      JsonSchemaType.typesString, SubSchema.ContainsEnum,
      newJsonContext, strTypeSchema] <;> decide)

/-- Claim C1, counterexample: with the lone alternative
`{"type":"string"}` and the value `true`, direct validation records a
`type` error while the `anyOf` parent records an `anyOf` summary error —
different errors, so the two validations are not identical. -/
theorem c1_counterexample :
    (SchemaValidate (anyOfOnly strTypeSchema) (.bool true)).errors.map
      (fun e => e.Attribute) = [KEY_ANY_OF] ∧
    (SchemaValidate strTypeSchema (.bool true)).errors.map
      (fun e => e.Attribute) = [KEY_TYPE] ∧
    KEY_ANY_OF ≠ KEY_TYPE := by
  refine ⟨?_, ?_, by decide⟩ <;>
  simp only [SchemaValidate, validateRecursive, validateSchema,
    validateSchemaAnyOf, validateSchemaOneOf, validateSchemaAllOf,
    validateSchemaNot, validateSchemaDependencies, validateCommon,
    validateString, validateNumber, anyOfLoop, getBestResult,
    subValidateWithContext, Result.addError, Result.mergeErrors,
    Result.incrementScore, Result.Valid, SubSchema.f,
    JsonSchemaType.IsTyped, JsonSchemaType.Contains,
    JsonSchemaType.typesString, SubSchema.ContainsEnum, newJsonContext,
    strTypeSchema, anyOfOnly] <;> decide

/-- The `uniqueItems` loop only ever appends `uniqueItems`-keyword
errors, so it never changes the count of errors a predicate ignoring
that keyword selects. -/
theorem uniqueItemsLoop_countP (p : ResultError → Bool)
    (hp : ∀ c : List String, p ⟨c, KEY_UNIQUE_ITEMS, none⟩ = false)
    (elems : List JsonValue) :
    ∀ (acc : List String) (res : Result) (ctx : List String),
      ((uniqueItemsLoop elems acc res ctx).errors.countP p) =
        res.errors.countP p := by
  induction elems with
  | nil => intro acc res ctx; rw [uniqueItemsLoop]
  | cons v rest ih =>
    intro acc res ctx
    rw [uniqueItemsLoop]
    cases hc : canonicalJson v with
    | none => simp [ih, Result.addError, List.countP_append, hp]
    | some vString =>
      by_cases hmem : isStringInSlice acc vString
      · simp [hc, hmem, ih, Result.addError, List.countP_append, hp]
      · simp [hc, hmem, ih]

/-- Claim C3 (corrected): for tuple items with `additionalItems` equal
to boolean `false` and more values than tuple entries, `validateArray`
adds exactly one `additionalItems` error in total — at the array's own
context — regardless of how many extra elements there are, not one per
extra element. -/
theorem c3_additionalItems_false_single_error (s : SubSchema)
    (value : List JsonValue) (res : Result) (ctx : List String)
    (h1 : s.f.itemsChildrenIsSingleSchema = false)
    (h2 : 0 < s.f.itemsChildren.length)
    (h3 : s.f.additionalItems = some (.bool false))
    (h4 : s.f.itemsChildren.length < value.length) :
    ((validateArray s value res ctx).errors.countP
        (fun e => e.Attribute == KEY_ADDITIONAL_ITEMS)) =
      res.errors.countP (fun e => e.Attribute == KEY_ADDITIONAL_ITEMS)
        + 1 := by
  have hne : ¬ (s.f.itemsChildren.length = value.length) :=
    Nat.ne_of_lt h4
  rw [validateArray]
  simp only [h1, h2, h3, hne, h4, Bool.false_eq_true, if_false, if_true,
    ite_true, ite_false, Bool.not_false, gt_iff_lt]
  have hp : ∀ c : List String,
      ((fun e : ResultError => e.Attribute == KEY_ADDITIONAL_ITEMS)
        ⟨c, KEY_UNIQUE_ITEMS, none⟩) = false := fun c => rfl
  have hUL := uniqueItemsLoop_countP
    (fun e : ResultError => e.Attribute == KEY_ADDITIONAL_ITEMS) hp
  repeat' split
  all_goals simp_all [hUL, Result.addError, Result.incrementScore,
    List.countP_append, KEY_MIN_ITEMS, KEY_MAX_ITEMS,
    KEY_ADDITIONAL_ITEMS, KEY_UNIQUE_ITEMS]

/-- Witness for C3 at a concrete input: tuple of one schema against a
three-element array with `additionalItems: false` yields exactly one
`additionalItems` error. -/
theorem c3_witness :
    ((validateArray c3TupleSchema [.str "a", .str "b", .str "c"] {}
        [STRING_CONTEXT_ROOT]).errors.countP
      (fun e => e.Attribute == KEY_ADDITIONAL_ITEMS)) =
      ({} : Result).errors.countP
        (fun e => e.Attribute == KEY_ADDITIONAL_ITEMS) + 1 :=
  c3_additionalItems_false_single_error c3TupleSchema
    [.str "a", .str "b", .str "c"] {} [STRING_CONTEXT_ROOT]
    rfl (by decide) rfl (by decide)

/-- Claim C3, counterexample: with `k = 1` tuple entry, `n = 3` values
and `additionalItems: false`, the full validation records one
`additionalItems` error, not `n − k = 2` as the claim states. -/
theorem c3_counterexample :
    ((SchemaValidate c3TupleSchema
        (.arr [.str "a", .str "b", .str "c"])).errors.countP
      (fun e => e.Attribute == KEY_ADDITIONAL_ITEMS)) = 1 ∧
    [JsonValue.str "a", .str "b", .str "c"].length -
      c3TupleSchema.f.itemsChildren.length = 2 ∧
    (1 : Nat) ≠ 2 := by
  refine ⟨?_, by decide, by decide⟩
  simp only [SchemaValidate, validateRecursive, validateSchema,
    validateSchemaAnyOf, validateSchemaOneOf, validateSchemaAllOf,
    validateSchemaNot, validateSchemaDependencies, validateCommon,
    validateString, validateNumber, validateArray, tupleItemsLoop,
    singleItemsLoop, additionalItemsLoop, uniqueItemsLoop,
    subValidateWithContext, Result.addError, Result.mergeErrors,
    Result.incrementScore, SubSchema.f, JsonSchemaType.IsTyped,
    JsonSchemaType.Contains, JsonSchemaType.typesString,
    SubSchema.ContainsEnum, newJsonContext, c3TupleSchema,
    strTypeSchema] <;> decide

/-- One enumeration order of the Go map `patternProperties = {"^a":
{"type":"integer"}, "a$": {"minLength": 5}}`. -/
def c4SchemaA : SubSchema := .mk
  { patternProperties :=
      [("^a", integerTypeSchema), ("a$", minLengthFiveSchema)] }

/-- The other enumeration order of the same `patternProperties` map. -/
def c4SchemaB : SubSchema := .mk
  { patternProperties :=
      [("a$", minLengthFiveSchema), ("^a", integerTypeSchema)] }

/-- Object `{"a": "x"}`: both patterns match the key `a`, and both
pattern schemas reject the value `"x"`. -/
def c4Value : JsonValue := .obj [("a", .str "x")]

/-- Claim C4, counterexample: the two schemas carry the same
`patternProperties` map (the association lists are permutations of each
other — two enumeration orders of one Go map, which Go does not fix
between invocations), yet validation records the two pattern failures in
different orders, so the error sequences of two invocations on the same
`(schema, value)` pair differ. -/
theorem c4_counterexample :
    c4SchemaA.f.patternProperties.Perm c4SchemaB.f.patternProperties ∧
    (SchemaValidate c4SchemaA c4Value).errors.map (fun e => e.Attribute) ≠
      (SchemaValidate c4SchemaB c4Value).errors.map
        (fun e => e.Attribute) := by
  constructor
  · simp only [c4SchemaA, c4SchemaB, SubSchema.f]
    exact List.Perm.swap _ _ _
  · simp only [SchemaValidate, validateRecursive, validateSchema,
    validateSchemaAnyOf, validateSchemaOneOf, validateSchemaAllOf,
    validateSchemaNot, validateSchemaDependencies, validateCommon,
    validateString, validateNumber, validateObject, requiredLoop,
    patternOnlyLoop, validatePatternProperty, patternPropsLoop,
    propertiesLoop, subValidateWithContext, Result.addError,
    Result.mergeErrors, Result.incrementScore, Result.Valid,
    SubSchema.f, JsonSchemaType.IsTyped, JsonSchemaType.Contains,
    JsonSchemaType.typesString, SubSchema.ContainsEnum, newJsonContext,
    lookupJson, regexpMatchString, c4SchemaA, c4SchemaB, c4Value,
    integerTypeSchema, minLengthFiveSchema] <;> decide

/-- Claim C4 (corrected): for a fixed enumeration order of the Go maps
involved, validation is a function of the `(schema, value)` pair; but
permuting the `patternProperties` enumeration order permutes the
recorded error sequence.  Validity and the multiset of recorded error
keywords are preserved across the two orders of this instance. -/
theorem c4_deterministic_up_to_map_order :
    ((SchemaValidate c4SchemaA c4Value).errors.map
        (fun e => e.Attribute)).Perm
      ((SchemaValidate c4SchemaB c4Value).errors.map
        (fun e => e.Attribute)) ∧
    (SchemaValidate c4SchemaA c4Value).Valid =
      (SchemaValidate c4SchemaB c4Value).Valid := by
  constructor <;> simp only [SchemaValidate, validateRecursive, validateSchema,
    validateSchemaAnyOf, validateSchemaOneOf, validateSchemaAllOf,
    validateSchemaNot, validateSchemaDependencies, validateCommon,
    validateString, validateNumber, validateObject, requiredLoop,
    patternOnlyLoop, validatePatternProperty, patternPropsLoop,
    propertiesLoop, subValidateWithContext, Result.addError,
    Result.mergeErrors, Result.incrementScore, Result.Valid,
    SubSchema.f, JsonSchemaType.IsTyped, JsonSchemaType.Contains,
    JsonSchemaType.typesString, SubSchema.ContainsEnum, newJsonContext,
    lookupJson, regexpMatchString, c4SchemaA, c4SchemaB, c4Value,
    integerTypeSchema, minLengthFiveSchema] <;> decide

/-- The `found` test of the `additionalProperties` loops: the key is
among the declared property names. -/
def isDeclaredProperty (s : SubSchema) (pk : String) : Bool :=
  s.f.propertiesChildren.any (fun spValue => spValue.f.property == pk)

/-- Some `patternProperties` pattern matches the key (the loop's `has`
flag). -/
def hasMatchingPattern (s : SubSchema) (key : String) : Bool :=
  s.f.patternProperties.any (fun q => regexpMatchString q.1 key)

/-- Some matching pattern's schema validates the value at the key's
sub-context (the loop's `validatedkey` flag: any, not every, matching
pattern). -/
def hasValidMatchingPattern (s : SubSchema) (key : String)
    (value : JsonValue) (ctx : List String) : Bool :=
  s.f.patternProperties.any (fun q =>
    regexpMatchString q.1 key &&
      (subValidateWithContext q.2 value (newJsonContext key ctx)).Valid)

/-- The flags the pattern-properties loop accumulates are exactly "some
pattern matched" and "some matching pattern validated". -/
theorem patternPropsLoop_flags (key : String) (value : JsonValue)
    (ctx : List String) (pps : List (String × SubSchema)) :
    ∀ (res : Result) (has vk : Bool),
      ((patternPropsLoop pps key value res ctx has vk).2.1 =
        (has || pps.any (fun q => regexpMatchString q.1 key))) ∧
      ((patternPropsLoop pps key value res ctx has vk).2.2 =
        (vk || pps.any (fun q =>
          regexpMatchString q.1 key &&
            (subValidateWithContext q.2 value
              (newJsonContext key ctx)).Valid))) := by
  induction pps with
  | nil => intro res has vk; rw [patternPropsLoop]; simp
  | cons q rest ih =>
    intro res has vk
    obtain ⟨pk0, pv0⟩ := q
    rw [patternPropsLoop]
    by_cases hm : regexpMatchString pk0 key
    · simp [hm, ih, Bool.or_assoc]
    · simp [hm, ih]

/-- The `(has, matched)` pair of `validatePatternProperty` is exactly
`(hasMatchingPattern, hasValidMatchingPattern)`: `matched` is true as
soon as one matching pattern validates, not only when all do. -/
theorem validatePatternProperty_flags (s : SubSchema) (key : String)
    (value : JsonValue) (res : Result) (ctx : List String) :
    ((validatePatternProperty s key value res ctx).2.1 =
      hasMatchingPattern s key) ∧
    ((validatePatternProperty s key value res ctx).2.2 =
      hasValidMatchingPattern s key value ctx) := by
  rw [validatePatternProperty]
  obtain ⟨h1, h2⟩ := patternPropsLoop_flags key value ctx
    s.f.patternProperties res false false
  simp only [Bool.false_or] at h1 h2
  unfold hasMatchingPattern hasValidMatchingPattern
  by_cases hvk : (patternPropsLoop s.f.patternProperties key value res
      ctx false false).2.2 <;>
    simp_all <;> exact h2

/-- Claim C5 (corrected): with `additionalProperties` equal to boolean
`false`, each processed key `pk` adds exactly one `additionalProperties`
error at `pk`'s sub-context unless it is permitted, where permitted
means: for a declared key, no pattern matches it or at least one
matching pattern's schema validates its value; for an undeclared key,
at least one pattern matches and at least one matching pattern's schema
validates its value.  (So a declared key can still receive the error,
and one valid matching pattern suffices — not every.) -/
theorem c5_additionalProperties_false_per_key (s : SubSchema)
    (pk : String) (pv : JsonValue) (rest : List (String × JsonValue))
    (res : Result) (ctx : List String)
    (h : s.f.additionalProperties = some (.bool false)) :
    addPropsFalseLoop s ((pk, pv) :: rest) res ctx =
      (let ppOut := validatePatternProperty s pk pv res ctx
       let permitted : Bool :=
         if isDeclaredProperty s pk then
           !(hasMatchingPattern s pk) || hasValidMatchingPattern s pk pv ctx
         else
           hasMatchingPattern s pk && hasValidMatchingPattern s pk pv ctx
       addPropsFalseLoop s rest
         (if permitted then ppOut.1
          else ppOut.1.addError (newJsonContext pk ctx)
            KEY_ADDITIONAL_PROPERTIES
            (if isDeclaredProperty s pk then
               some (.patterns s.f.patternProperties)
             else none))
         ctx) := by
  obtain ⟨hf1, hf2⟩ := validatePatternProperty_flags s pk pv res ctx
  rw [addPropsFalseLoop]
  rw [show (s.f.propertiesChildren.any
      (fun spValue => spValue.f.property == pk)) =
      isDeclaredProperty s pk from rfl]
  by_cases hd : isDeclaredProperty s pk <;>
    by_cases hm : hasMatchingPattern s pk <;>
    by_cases hv : hasValidMatchingPattern s pk pv ctx <;>
    simp [hd, hm, hv, hf1, hf2]

/-- Witness for C5 at a concrete input: the declared key `a` of
`c5Schema` is matched by the failing pattern `^a`, so its processing
step appends the `additionalProperties` error. -/
theorem c5_witness :
    addPropsFalseLoop c5Schema [("a", .str "txt")] {}
        [STRING_CONTEXT_ROOT] =
      (let ppOut := validatePatternProperty c5Schema "a" (.str "txt") {}
        [STRING_CONTEXT_ROOT]
       let permitted : Bool :=
         if isDeclaredProperty c5Schema "a" then
           !(hasMatchingPattern c5Schema "a") ||
             hasValidMatchingPattern c5Schema "a" (.str "txt")
               [STRING_CONTEXT_ROOT]
         else
           hasMatchingPattern c5Schema "a" &&
             hasValidMatchingPattern c5Schema "a" (.str "txt")
               [STRING_CONTEXT_ROOT]
       addPropsFalseLoop c5Schema []
         (if permitted then ppOut.1
          else ppOut.1.addError
            (newJsonContext "a" [STRING_CONTEXT_ROOT])
            KEY_ADDITIONAL_PROPERTIES
            (if isDeclaredProperty c5Schema "a" then
               some (.patterns c5Schema.f.patternProperties)
             else none))
         [STRING_CONTEXT_ROOT]) :=
  c5_additionalProperties_false_per_key c5Schema "a" (.str "txt") [] {}
    [STRING_CONTEXT_ROOT] rfl

/-- Claim C5, counterexample: in `c5Schema` the key `a` is declared
under `properties`, yet because the pattern `^a` matches `a` and its
schema `{"type":"integer"}` rejects `"txt"`, validation records an
`additionalProperties` error for `a` — the claim says a declared key
receives none. -/
theorem c5_counterexample :
    isDeclaredProperty c5Schema "a" = true ∧
    ((SchemaValidate c5Schema (.obj [("a", .str "txt")])).errors.countP
      (fun e => e.Attribute == KEY_ADDITIONAL_PROPERTIES)) = 1 := by
  refine ⟨by decide, ?_⟩
  simp [SchemaValidate, validateRecursive, validateSchema,
    validateSchemaAnyOf, validateSchemaOneOf, validateSchemaAllOf,
    validateSchemaNot, validateSchemaDependencies, validateCommon,
    validateString, validateNumber, validateObject, requiredLoop,
    addPropsFalseLoop, validatePatternProperty, patternPropsLoop,
    propertiesLoop, anyOfLoop, getBestResult, subValidateWithContext,
    Result.addError, Result.mergeErrors, Result.incrementScore,
    Result.Valid, SubSchema.f, JsonSchemaType.IsTyped,
    JsonSchemaType.Contains, JsonSchemaType.typesString,
    SubSchema.ContainsEnum, newJsonContext, lookupJson,
    regexpMatchString, c5Schema, integerTypeSchema,
    KEY_ADDITIONAL_PROPERTIES, KEY_TYPE, TYPE_STRING, TYPE_INTEGER,
    TYPE_OBJECT]

/-- Best-match selection characterized: a sub-result is returned exactly
when the list has at least two entries and it carries the unique
maximal score. -/
theorem getBestResult_iff (l : List Result) (r : Result) :
    getBestResult l = some r ↔
      (2 ≤ l.length ∧ r ∈ l ∧ (∀ x ∈ l, x.score ≤ r.score) ∧
        l.countP (fun x => x.score == r.score) = 1) := by
  rw [getBestResult]
  by_cases hl : l.length > 1
  · have perm : List.Perm
        (l.mergeSort (fun a b => decide (b.score ≤ a.score))) l :=
      List.mergeSort_perm l _
    have pw :=
      @List.sorted_mergeSort Result
        (fun a b => decide (b.score ≤ a.score))
        (fun a b c h1 h2 => by
          simp only [decide_eq_true_eq] at h1 h2 ⊢; omega)
        (fun a b => by
          simp only [Bool.or_eq_true, decide_eq_true_eq]; omega) l
    have hlen : (l.mergeSort (fun a b => decide (b.score ≤ a.score))).length =
        l.length := @List.length_mergeSort Result
          (fun a b => decide (b.score ≤ a.score)) l
    obtain ⟨r0, r1, t, hs⟩ :
        ∃ r0 r1 t, l.mergeSort (fun a b => decide (b.score ≤ a.score)) =
          r0 :: r1 :: t := by
      match hm : l.mergeSort (fun a b => decide (b.score ≤ a.score)) with
      | [] => rw [hm] at hlen; simp at hlen; omega
      | [a] => rw [hm] at hlen; simp at hlen; omega
      | a :: b :: t => exact ⟨a, b, t, rfl⟩
    rw [hs] at perm pw
    rw [hs]
    have hr0max : ∀ x ∈ r0 :: r1 :: t, x.score ≤ r0.score := by
      intro x hx
      rcases List.mem_cons.mp hx with rfl | hx
      · omega
      · have := (List.pairwise_cons.mp pw).1 x hx
        simp only [decide_eq_true_eq] at this
        omega
    have hr1max : ∀ x ∈ r1 :: t, x.score ≤ r1.score := by
      intro x hx
      rcases List.mem_cons.mp hx with rfl | hx
      · omega
      · have := (List.pairwise_cons.mp (List.pairwise_cons.mp pw).2).1 x hx
        simp only [decide_eq_true_eq] at this
        omega
    simp only [hl, if_true, gt_iff_lt]
    constructor
    · intro hsome
      by_cases hne : r0.score = r1.score
      · simp [hne] at hsome
      · simp [hne] at hsome
        subst hsome
        refine ⟨by omega, perm.mem_iff.mp (by simp), ?_, ?_⟩
        · intro x hx
          exact hr0max x (perm.mem_iff.mpr hx)
        · have hz : (r1 :: t).countP (fun x => x.score == r0.score) = 0 := by
            rw [List.countP_eq_zero]
            intro a ha
            have h1 := hr1max a ha
            have h2 : r1.score ≤ r0.score := hr0max r1 (by simp)
            simp only [beq_iff_eq]
            omega
          rw [← perm.countP_eq, List.countP_cons, hz]
          simp
    · rintro ⟨h2, hr, hmax, hcount⟩
      have hrs : r0.score = r.score := by
        have ha : r0.score ≤ r.score := hmax r0 (perm.mem_iff.mp (by simp))
        have hb : r.score ≤ r0.score :=
          hr0max r (perm.mem_iff.mpr hr)
        omega
      have hne : ¬ (r0.score = r1.score) := by
        intro heq
        have : l.countP (fun x => x.score == r.score) ≥ 2 := by
          rw [← perm.countP_eq]
          simp [List.countP_cons, hrs, ← heq]
        omega
      simp only [hne, ne_eq, not_false_eq_true, if_true]
      have hpr0 : r0 ∈ l.filter (fun x => x.score == r.score) := by
        rw [List.mem_filter]
        exact ⟨perm.mem_iff.mp (by simp), by simp [hrs]⟩
      have hpr : r ∈ l.filter (fun x => x.score == r.score) := by
        rw [List.mem_filter]
        exact ⟨hr, by simp⟩
      have hflen : (l.filter (fun x => x.score == r.score)).length = 1 := by
        rw [← List.countP_eq_length_filter]
        exact hcount
      obtain ⟨z, hz⟩ := List.length_eq_one.mp hflen
      rw [hz] at hpr0 hpr
      simp at hpr0 hpr
      rw [show r0 = r from hpr0.trans hpr.symm]
  · rw [if_neg hl]
    constructor
    · intro hcon; exact Option.noConfusion hcon
    · rintro ⟨h2, _⟩; omega

/-- The `oneOf` loop counts exactly the valid alternatives. -/
theorem oneOfLoop_count (currentNode : JsonValue) (ctx : List String)
    (schemas : List SubSchema) :
    ∀ (nb : Nat) (results : List Result),
      (oneOfLoop schemas currentNode ctx nb results).1 =
        nb + schemas.countP
          (fun a => (subValidateWithContext a currentNode ctx).Valid) := by
  induction schemas with
  | nil => intro nb results; rw [oneOfLoop]; simp
  | cons a rest ih =>
    intro nb results
    rw [oneOfLoop]
    by_cases hv : (subValidateWithContext a currentNode ctx).Valid <;>
      simp [hv, ih, List.countP_cons] <;> omega

/-- With two or more valid `oneOf` alternatives, the `oneOf` section
adds exactly the single summary error (no best-match merge is even
attempted). -/
theorem oneOf_two_valid_summary (s : SubSchema) (node : JsonValue)
    (res : Result) (ctx : List String)
    (h2 : 2 ≤ s.f.oneOf.countP
      (fun a => (subValidateWithContext a node ctx).Valid)) :
    validateSchemaOneOf s node res ctx =
      res.addError ctx KEY_ONE_OF (some (.schemas s.f.oneOf)) := by
  have hcount := oneOfLoop_count node ctx s.f.oneOf 0 []
  have hlen : 0 < s.f.oneOf.length := by
    have := List.countP_le_length
      (p := fun a => (subValidateWithContext a node ctx).Valid)
      (l := s.f.oneOf)
    omega
  rw [validateSchemaOneOf]
  have h1 : (oneOfLoop s.f.oneOf node ctx 0 []).1 ≠ 1 := by omega
  have h0 : ¬ ((oneOfLoop s.f.oneOf node ctx 0 []).1 = 0) := by omega
  simp [hlen, h1, h0]

/-- Schema `{"oneOf": [{}, {}]}`: both alternatives validate anything. -/
def c6TwoValidOneOf : SubSchema := .mk { oneOf := [emptySchema, emptySchema] }

/-- Claim C6 (corrected): `getBestResult` returns a sub-result exactly
when the list has at least two entries and that sub-result carries the
unique maximal score (every entry scores no higher, and exactly one
entry attains the top score); a tie at the top — and also a
single-element list, which the claim overlooks — yields nothing, and
`validateSchema` then falls back to the summary error.  The second part
states the claim's `oneOf` clause: with two or more valid alternatives
the `oneOf` section adds the single summary error. -/
theorem c6_getBestResult_characterization (l : List Result) (r : Result)
    (s : SubSchema) (node : JsonValue) (res : Result)
    (ctx : List String) :
    (getBestResult l = some r ↔
      (2 ≤ l.length ∧ r ∈ l ∧ (∀ x ∈ l, x.score ≤ r.score) ∧
        l.countP (fun x => x.score == r.score) = 1)) ∧
    (2 ≤ s.f.oneOf.countP
        (fun a => (subValidateWithContext a node ctx).Valid) →
      validateSchemaOneOf s node res ctx =
        res.addError ctx KEY_ONE_OF (some (.schemas s.f.oneOf))) :=
  ⟨getBestResult_iff l r, oneOf_two_valid_summary s node res ctx⟩

/-- Witness for C6 at a concrete input: a two-element list with distinct
scores has a best result, and the two-valid-alternatives `oneOf` schema
gets exactly the summary error. -/
theorem c6_witness :
    getBestResult [{ score := 3 }, { score := 1 }] =
      some { score := 3 } ∧
    validateSchemaOneOf c6TwoValidOneOf .null {} [STRING_CONTEXT_ROOT] =
      Result.addError {} [STRING_CONTEXT_ROOT] KEY_ONE_OF
        (some (.schemas c6TwoValidOneOf.f.oneOf)) := by
  constructor
  · apply (c6_getBestResult_characterization
      [{ score := 3 }, { score := 1 }] { score := 3 } emptySchema .null
      {} [STRING_CONTEXT_ROOT]).1.mpr
    refine ⟨by decide, by simp, ?_, by decide⟩
    intro x hx
    fin_cases hx <;> decide
  · have hv : (subValidateWithContext emptySchema JsonValue.null
        [STRING_CONTEXT_ROOT]).Valid = true := by
      simp [subValidateWithContext, validateRecursive, validateSchema,
        validateSchemaAnyOf, validateSchemaOneOf, validateSchemaAllOf,
        validateSchemaNot, validateSchemaDependencies, validateCommon,
        emptySchema, SubSchema.f, JsonSchemaType.IsTyped,
        SubSchema.ContainsEnum, Result.incrementScore, Result.Valid]
    apply (c6_getBestResult_characterization [] { score := 0 }
      c6TwoValidOneOf .null {} [STRING_CONTEXT_ROOT]).2
    simp [c6TwoValidOneOf, SubSchema.f, hv, List.countP_cons]

/-- A failed sub-result (one error, score −1), as a single `anyOf`
alternative would produce it. -/
def c6SingleFailedResult : Result :=
  { errors := [{ Context := [STRING_CONTEXT_ROOT], Attribute := KEY_TYPE,
                 Requirement := none }]
    score := -1 }

/-- Claim C6, counterexample: a one-element list of failed sub-results
has a unique strictly-highest score, yet `getBestResult` returns
nothing (its guard requires more than one result), so the caller emits
the summary error instead of merging. -/
theorem c6_counterexample :
    getBestResult [c6SingleFailedResult] = none ∧
    [c6SingleFailedResult] ≠ ([] : List Result) := by
  constructor
  · rw [getBestResult]
    simp
  · simp

end GoJsonSchema
